import Mathlib

/-!
# Verification of the alacritty terminal grid (`alacritty_terminal/src/grid/mod.rs`)

This file is a shallow embedding of the grid layer of the alacritty terminal
emulator, together with proofs about the scrolling algorithms, coordinate
transforms and iterators.

## Modelling conventions

* The only source file of the repository is `grid/mod.rs`.  The `Storage`,
  `Row` and `index` modules it uses are not part of the sources, so their
  behaviour is modelled from the specification (each such definition carries a
  doc comment starting with `Modelled from the spec:`).
* `Storage` is modelled as a `List` of rows; index `0` is the absolute bottom
  of the buffer (the newest row), increasing indices go up into the viewport
  and then into history, exactly as the absolute addressing of the source.
  The ring-buffer rotation offset is invisible at this level: `rotate` is a
  cyclic rotation of the logical list.
* `usize` arithmetic is modelled with `Nat`.  Where the source can panic
  (subtraction underflow with debug assertions, out-of-bounds indexing), the
  grid operations return `Option` and `none` models the panic; the guard
  propositions written into the definitions collect exactly the conditions
  under which the corresponding Rust code runs to completion.
* Cells are a type parameter `α` with the `GridCell` capability (`is_empty`
  plus the `Default` bound used when new rows are created), as in the source.
  A row reset stamps every cell with the cursor template.
-/

set_option linter.unusedVariables false

namespace AlacrittyGrid

/-- A point: a `line` and a `col`.  Depending on context `line` is either a
viewport-relative `Line` or an absolute buffer row (counted from the bottom,
`0` = newest), matching `Point`/`Point<usize>` of the source. -/
structure Point where
  line : Nat
  col : Nat
deriving DecidableEq, Repr

/-- The cell capability the grid is generic over, from trait `GridCell` plus
the `Default` bound of the source: an emptiness test, and the default value
used for freshly constructed rows.  (The per-cell `reset(template)` of the
source is modelled at row level: a reset row holds copies of the template.) -/
class GridCell (α : Type) where
  is_empty : α → Bool
  dflt : α

/-- Cursor state, from `struct Cursor<T>`.  The four charset selectors are
modelled as plain numbers (their content never influences the grid). -/
structure Cursor (α : Type) where
  point : Point
  template : α
  charsets : List Nat
  input_needs_wrap : Bool
deriving DecidableEq, Repr

/-- `Cursor::default()`: origin point, default template, default charsets,
no pending wrap. -/
def Cursor.init (α : Type) [GridCell α] : Cursor α :=
  { point := ⟨0, 0⟩, template := GridCell.dflt, charsets := [0, 0, 0, 0],
    input_needs_wrap := false }

namespace Storage

/-- Modelled from the spec: `Storage::swap(i, j)` exchanges the rows at two
absolute indices.  Out of bounds, the source panics; the model leaves the
list unchanged (the grid-level guards rule that case out). -/
def swap {ρ : Type} (l : List ρ) (i j : Nat) : List ρ :=
  match l[i]?, l[j]? with
  | some a, some b => (l.set i b).set j a
  | _, _ => l

/-- Modelled from the spec: `Storage::rotate(-(p as isize))` shifts the ring's
logical zero point by `-p`, so the row at absolute index `i` afterwards is the
row that was at absolute index `(i - p) mod len`. -/
def rotate_neg {ρ : Type} (l : List ρ) (p : Nat) : List ρ :=
  l.rotate (l.length - p % l.length)

/-- Modelled from the spec: `Storage::rotate_down(p)` shifts the logical zero
point by `+p`: the row at absolute index `i` afterwards is the row that was at
absolute index `(i + p) mod len`. -/
def rotate_down {ρ : Type} (l : List ρ) (p : Nat) : List ρ :=
  l.rotate p

/-- Modelled from the spec: `Storage::initialize(n, cols)` grows the buffer by
`n` freshly-constructed rows of `cols` default cells.  New rows appear at the
logical tail (the top of history), which is what makes the subsequent
`rotate` of `scroll_up` expose them at the bottom of the screen. -/
def grow {α : Type} [GridCell α] (l : List (List α)) (n cols : Nat) :
    List (List α) :=
  l ++ List.replicate n (List.replicate cols (GridCell.dflt))

/-- Modelled from the spec: `Storage::shrink_lines(n)` drops the `n` oldest
rows, i.e. the logical tail of the buffer. -/
def shrink_lines {ρ : Type} (l : List ρ) (n : Nat) : List ρ :=
  l.take (l.length - n)

end Storage

/-! ## The loop bodies of the scrolling algorithms

Each `for` loop of `scroll_up` / `scroll_down` is translated into a recursive
function that performs the same sequence of `Storage` operations in the same
order.  All of them are generic in the row type `ρ`. -/

/-- `scroll_up`, fixed lines at the top:
`for i in (0..region.start).rev() { swap(screen - i - 1, screen - i - 1 - positions) }`.
`fix_swap_top screen p s` processes `i = s-1` first (index `screen - s`),
then recurses, i.e. ascending absolute indices, as in the source. -/
def fix_swap_top {ρ : Type} (screen p : Nat) : Nat → List ρ → List ρ
  | 0, l => l
  | s + 1, l => fix_swap_top screen p s (Storage.swap l (screen - 1 - s) (screen - 1 - s - p))

/-- Ascending swap run: `swap(a, a + p)`, `swap(a+1, a+1+p)`, …, `n` times.
With `a = 0` this is the fixed-lines-at-the-bottom loop of `scroll_up`:
`for i in 0..fixed_lines { swap(i, i + positions) }`. -/
def swap_ascend {ρ : Type} (p : Nat) : Nat → Nat → List ρ → List ρ
  | _, 0, l => l
  | a, n + 1, l => swap_ascend p (a + 1) n (Storage.swap l a (a + p))

/-- `scroll_down` (rotation strategy), fixed lines at the bottom:
`for i in (0..fixed_lines).rev() { swap(i, i + positions) }`; processes
`i = n-1` first, descending, as in the source. -/
def swap_descend {ρ : Type} (p : Nat) : Nat → List ρ → List ρ
  | 0, l => l
  | n + 1, l => swap_descend p n (Storage.swap l n (n + p))

/-- `scroll_down` (rotation strategy), fixed lines at the top:
`for i in 0..region.start { swap(screen - i - 1, screen - i - 1 - positions) }`;
ascending `i`, so descending absolute indices starting at `a = screen - 1`. -/
def swap_down_from {ρ : Type} (p : Nat) : Nat → Nat → List ρ → List ρ
  | _, 0, l => l
  | a, n + 1, l => swap_down_from p (a - 1) n (Storage.swap l a (a - p))

/-- `scroll_down` (subregion strategy):
`for line in (region.start + positions..region.end).rev() { swap_lines(line, line - positions) }`
where `swap_lines(a, b)` swaps absolute indices `screen - 1 - a` and
`screen - 1 - b`.  `lo = region.start + positions`, `c` counts the lines;
`line = lo + c - 1` is processed first, as `.rev()` does. -/
def swap_lines_desc {ρ : Type} (screen p lo : Nat) : Nat → List ρ → List ρ
  | 0, l => l
  | c + 1, l =>
      swap_lines_desc screen p lo c
        (Storage.swap l (screen - 1 - (lo + c)) (screen - 1 - (lo + c - p)))

/-- Reset rows at ascending absolute indices `a, a+1, …` (`count` many) to the
template row: `for i in a..a+count { raw[i].reset(&template) }`. -/
def reset_asc {ρ : Type} (tmpl : ρ) : Nat → Nat → List ρ → List ρ
  | _, 0, l => l
  | a, c + 1, l => reset_asc tmpl (a + 1) c (l.set a tmpl)

/-- Reset viewport lines `lo, lo+1, …` (`count` many) to the template row:
`for i in lo..lo+count { raw[screen - i - 1].reset(&template) }` (ascending
lines, so descending absolute indices). -/
def reset_lines_asc {ρ : Type} (tmpl : ρ) (screen : Nat) : Nat → Nat → List ρ → List ρ
  | _, 0, l => l
  | lo, c + 1, l => reset_lines_asc tmpl screen (lo + 1) c (l.set (screen - 1 - lo) tmpl)

/-- `enum Scroll`. -/
inductive Scroll where
  | delta (count : Int)
  | pageUp
  | pageDown
  | top
  | bottom
deriving DecidableEq, Repr

/-- `struct Grid<T>`.  `raw` is the storage (index 0 = absolute bottom row);
`lines` is the viewport height, `cols` the width. -/
structure Grid (α : Type) where
  cursor : Cursor α
  saved_cursor : Cursor α
  raw : List (List α)
  cols : Nat
  lines : Nat
  display_offset : Nat
  max_scroll_limit : Nat
deriving DecidableEq, Repr

namespace Grid

variable {α : Type}

/-- `Dimensions::total_lines` for `Grid`: length of the storage. -/
def total_lines (g : Grid α) : Nat := g.raw.length

/-- `Dimensions::screen_lines` for `Grid`: the viewport height. -/
def screen_lines (g : Grid α) : Nat := g.lines

/-- `Dimensions::history_size`: `total_lines() - screen_lines()`
(`usize` subtraction; the source relies on `screen_lines ≤ total_lines`). -/
def history_size (g : Grid α) : Nat := g.total_lines - g.screen_lines

/-- The row stamped by a reset: `cols` copies of the cursor template. -/
def row_template (g : Grid α) : List α := List.replicate g.cols g.cursor.template

/-- The viewport row at `Line l`: `Index<Line>` resolves to absolute index
`screen_lines - 1 - l`. -/
def line_row (g : Grid α) (l : Nat) : Option (List α) := g.raw[g.lines - 1 - l]?

/-- The cell at an absolute `Point<usize>` (`Index<Point<usize>>`). -/
def cell_at (g : Grid α) (pt : Point) : Option α :=
  (g.raw[pt.line]?).bind (fun r => r[pt.col]?)

/-- `Grid::new(lines, cols, max_scroll_limit)`: storage of exactly `lines`
rows of default cells, offset 0, default cursors. -/
def new (α : Type) [GridCell α] (lines cols max_scroll_limit : Nat) : Grid α :=
  { cursor := Cursor.init α
    saved_cursor := Cursor.init α
    raw := List.replicate lines (List.replicate cols (GridCell.dflt))
    cols := cols
    lines := lines
    display_offset := 0
    max_scroll_limit := max_scroll_limit }

/-- `Grid::update_history(history_size)`. -/
def update_history [GridCell α] (g : Grid α) (history_size : Nat) : Grid α :=
  let current := g.history_size
  let g1 := if current > history_size
    then { g with raw := Storage.shrink_lines g.raw (current - history_size) }
    else g
  { g1 with display_offset := min g.display_offset history_size,
            max_scroll_limit := history_size }

/-- `Grid::scroll_display(scroll)`. -/
def scroll_display (g : Grid α) (scroll : Scroll) : Grid α :=
  { g with display_offset :=
      match scroll with
      | .delta count => min (max ((g.display_offset : Int) + count) 0).toNat g.history_size
      | .pageUp => min (g.display_offset + g.lines) g.history_size
      | .pageDown => g.display_offset - g.lines
      | .top => g.history_size
      | .bottom => 0 }

/-- `Grid::increase_scroll_limit(count)`: grow the storage by
`min(count, max_scroll_limit - history_size())` rows. -/
def increase_scroll_limit [GridCell α] (g : Grid α) (count : Nat) : Grid α :=
  let count := min count (g.max_scroll_limit - g.history_size)
  if count ≠ 0 then { g with raw := Storage.grow g.raw count g.cols } else g

/-- `Grid::clear_history()`: shrink the storage by the whole history.
Note that `display_offset` is not touched. -/
def clear_history (g : Grid α) : Grid α :=
  { g with raw := Storage.shrink_lines g.raw g.history_size }

/-- The guard of the reset branch of both scroll directions
(`for i in region.start..region.end { raw[screen - i - 1].reset(..) }` runs
without a panic): vacuous for an empty region, otherwise every index is in
bounds. -/
def reset_region_ok (g : Grid α) (rs re : Nat) : Prop :=
  rs = re ∨ (re ≤ g.lines ∧ g.lines - 1 - rs < g.raw.length)

instance (g : Grid α) (rs re : Nat) : Decidable (g.reset_region_ok rs re) := by
  unfold reset_region_ok; infer_instance

/-- Storage length after `increase_scroll_limit p`. -/
def grown_len (g : Grid α) (p : Nat) : Nat :=
  g.raw.length + min p (g.max_scroll_limit - g.history_size)

/-- Conditions under which the general path of `scroll_up` runs without a
panic (debug semantics: any `usize` underflow or out-of-bounds index is a
panic): `history_size` and `max_scroll_limit - history_size()` must not
underflow, the fixed-top swap loop must stay in bounds, the freshly exposed
rows `0..positions` must exist, and the fixed-bottom swap loop must stay in
bounds. -/
def scroll_up_ok (g : Grid α) (rs re p : Nat) : Prop :=
  g.lines ≤ g.raw.length ∧
  g.raw.length - g.lines ≤ g.max_scroll_limit ∧
  rs ≤ g.lines ∧ (rs = 0 ∨ p ≤ g.lines - rs) ∧
  p ≤ g.grown_len p ∧
  re ≤ g.lines ∧
  (g.lines - re = 0 ∨ g.lines - re - 1 + p < g.grown_len p)

instance (g : Grid α) (rs re p : Nat) : Decidable (g.scroll_up_ok rs re p) := by
  unfold scroll_up_ok; infer_instance

/-- The general path of `scroll_up` (assuming `scroll_up_ok`): bump the
display offset when scrolled back, realize new history lines, swap the fixed
top lines to their post-rotation slots, rotate the whole buffer upward, clear
the exposed rows, and swap the fixed bottom lines back. -/
def scroll_up_go [GridCell α] (g : Grid α) (rs re p : Nat) : Grid α :=
  let screen := g.lines
  let g1 := if g.display_offset ≠ 0
    then { g with display_offset := min (g.display_offset + p) g.max_scroll_limit }
    else g
  let g2 := g1.increase_scroll_limit p
  let r3 := fix_swap_top screen p rs g2.raw
  let r4 := Storage.rotate_neg r3 p
  let r5 := reset_asc g.row_template 0 p r4
  let r6 := swap_ascend p 0 (screen - re) r5
  { g2 with raw := r6 }

/-- `Grid::scroll_up(region, positions)`.  `none` models a panic. -/
def scroll_up [GridCell α] (g : Grid α) (rs re p : Nat) : Option (Grid α) :=
  if rs > re then none  -- `region.end - region.start` underflows
  else if p ≥ re - rs ∧ rs ≠ 0 then
    -- "When rotating the entire region with fixed lines at the top, just
    -- reset everything."
    if g.reset_region_ok rs re then
      some { g with raw := reset_lines_asc g.row_template g.lines rs (re - rs) g.raw }
    else none
  else
    if g.scroll_up_ok rs re p then some (g.scroll_up_go rs re p) else none

/-- Conditions under which the whole-buffer-rotation path of `scroll_down`
(no scrollback configured) runs without a panic. -/
def scroll_down_rot_ok (g : Grid α) (rs re p : Nat) : Prop :=
  re ≤ g.lines ∧
  (g.lines - re = 0 ∨ g.lines - re - 1 + p < g.raw.length) ∧
  (p = 0 ∨ g.lines ≤ g.raw.length) ∧
  (rs = 0 ∨ g.lines ≤ g.raw.length)

instance (g : Grid α) (rs re p : Nat) : Decidable (g.scroll_down_rot_ok rs re p) := by
  unfold scroll_down_rot_ok; infer_instance

/-- The whole-buffer-rotation path of `scroll_down` (`max_scroll_limit == 0`):
swap the fixed bottom lines to their post-rotation slots, rotate the buffer
downward, clear the rows exposed at the top of the screen, swap the fixed top
lines back. -/
def scroll_down_rot [GridCell α] (g : Grid α) (rs re p : Nat) : Grid α :=
  let screen := g.lines
  let r1 := swap_descend p (screen - re) g.raw
  let r2 := Storage.rotate_down r1 p
  let r3 := reset_lines_asc g.row_template screen 0 p r2
  let r4 := swap_down_from p (screen - 1) rs r3
  { g with raw := r4 }

/-- The subregion-swap path of `scroll_down` (scrollback present): rotate only
the rows inside the region by pairwise swaps from the bottom end upward, then
reset the lines exposed at the region top. -/
def scroll_down_sub [GridCell α] (g : Grid α) (rs re p : Nat) : Grid α :=
  let screen := g.lines
  let r1 := swap_lines_desc screen p (rs + p) (re - (rs + p)) g.raw
  let r2 := reset_lines_asc g.row_template screen rs p r1
  { g with raw := r2 }

/-- `Grid::scroll_down(region, positions)`.  `none` models a panic. -/
def scroll_down [GridCell α] (g : Grid α) (rs re p : Nat) : Option (Grid α) :=
  if rs > re then none  -- `region.end - region.start` underflows
  else if p ≥ re - rs then
    -- "When rotating the entire region, just reset everything."
    if g.reset_region_ok rs re then
      some { g with raw := reset_lines_asc g.row_template g.lines rs (re - rs) g.raw }
    else none
  else if g.max_scroll_limit = 0 then
    if g.scroll_down_rot_ok rs re p then some (g.scroll_down_rot rs re p) else none
  else
    if re ≤ g.lines ∧ g.lines - 1 - rs < g.raw.length
    then some (g.scroll_down_sub rs re p) else none

/-- `GridIterator::next`: advance one cell in row-major reading order
(left to right, then down one absolute line). -/
def next_point (cols : Nat) (pt : Point) : Option Point :=
  if pt.line = 0 ∧ pt.col = cols - 1 then none
  else if pt.col = cols - 1 then some ⟨pt.line - 1, 0⟩
  else some ⟨pt.line, pt.col + 1⟩

/-- `GridIterator::prev` (the `BidirectionalIterator` instance): step one cell
backwards, wrapping from column 0 up to the last column of the next line. -/
def prev_point (total cols : Nat) (pt : Point) : Option Point :=
  if pt.col = 0 ∧ pt.line = total - 1 then none
  else if pt.col = 0 then some ⟨pt.line + 1, cols - 1⟩
  else some ⟨pt.line, pt.col - 1⟩

/-- `cell.is_empty()` at a buffer point (an out-of-bounds read, a panic in
the source, counts as not empty here; the guards of `clear_viewport` keep
the scan's reads in bounds). -/
def cell_empty [GridCell α] (g : Grid α) (pt : Point) : Bool :=
  match g.cell_at pt with
  | some x => GridCell.is_empty x
  | none => false

/-- The scan of `clear_viewport`: walk the bidirectional iterator backwards
from the bottom-right, as long as cells are empty and the position is still
inside the viewport.  Returns the iterator's final position.  `fuel` makes the
recursion structural; `clear_viewport` passes enough for the walk to finish. -/
def scan_back [GridCell α] (g : Grid α) : Nat → Point → Point
  | 0, cur => cur
  | fuel + 1, cur =>
      match prev_point g.total_lines g.cols cur with
      | none => cur
      | some c =>
          if g.cell_empty c = true ∧ c.line < g.lines
          then scan_back g fuel c
          else c

/-- The final position of the backward scan of `clear_viewport`, starting
from `Point { line: 0, col: cols }`; the fuel surely covers the walk. -/
def scan_stop [GridCell α] (g : Grid α) : Point :=
  scan_back g (g.raw.length * g.cols + g.cols + 1) ⟨0, g.cols⟩

/-- `let positions = self.lines - iter.cur.line` of `clear_viewport`. -/
def clear_positions [GridCell α] (g : Grid α) : Nat :=
  g.lines - (g.scan_stop).line

/-- `Grid::clear_viewport()`: find how many screen lines hold all the content
(by scanning backward over trailing empty rows), scroll the full screen region
up by that amount, force the display offset to 0, and reset the remaining
rows.  The leading guard collects the conditions for the scan's cell reads to
be in bounds (`cols >= 1` and every visited row long enough), as in the
source, where an out-of-bounds read panics. -/
def clear_viewport [GridCell α] (g : Grid α) : Option (Grid α) :=
  if 1 ≤ g.cols ∧ g.raw.all (fun r => g.cols ≤ r.length) then
    let positions := g.clear_positions
    let g1 := { g with display_offset := 0 }
    match g1.scroll_up 0 g.lines positions with
    | some g2 => some { g2 with raw := reset_asc g.row_template positions (g.lines - positions) g2.raw }
    | none => none
  else none

/-- `Grid::reset()`: drop all history, restore both cursors, pin the display,
and reset every row in place with the (default) cursor template. -/
def reset [GridCell α] (g : Grid α) : Grid α :=
  let g1 := g.clear_history
  let g2 := { g1 with saved_cursor := Cursor.init α, cursor := Cursor.init α,
                      display_offset := 0 }
  { g2 with raw := reset_asc g2.row_template 0 g2.raw.length g2.raw }

/-- `Grid::visible_to_buffer(point)`: absolute row
`lines + display_offset - point.line - 1`, column unchanged. -/
def visible_to_buffer (g : Grid α) (pt : Point) : Point :=
  ⟨g.lines + g.display_offset - pt.line - 1, pt.col⟩

/-- `Grid::clamp_buffer_to_visible(point)`. -/
def clamp_buffer_to_visible (g : Grid α) (pt : Point) : Point :=
  if pt.line < g.display_offset then ⟨g.lines - 1, g.cols - 1⟩
  else if pt.line ≥ g.display_offset + g.lines then ⟨0, 0⟩
  else g.visible_to_buffer pt

/-- `Grid::clamp_buffer_range_to_visible(range)`: `range = (start, end)` is an
inclusive range of absolute points. -/
def clamp_buffer_range_to_visible (g : Grid α) (r : Point × Point) :
    Option (Point × Point) :=
  let start := r.1
  let endp := r.2
  let viewport_end := g.display_offset
  let viewport_start := viewport_end + g.lines - 1
  if endp.line > viewport_start ∨ start.line < viewport_end then none
  else some (g.clamp_buffer_to_visible start, g.clamp_buffer_to_visible endp)

/-- The asserts of `IndexRegion<Range<Line>>::region` for `Grid`:
`start < screen_lines`, `end <= screen_lines`, `start <= end`.  `none` models
an assertion failure; `some` returns the region bounds. -/
def region (g : Grid α) (rs re : Nat) : Option (Nat × Nat) :=
  if rs < g.screen_lines ∧ re ≤ g.screen_lines ∧ rs ≤ re then some (rs, re) else none

/-- The asserts of `IndexRegion<Range<Line>>::region_mut`, identical to
`region`. -/
def region_mut (g : Grid α) (rs re : Nat) : Option (Nat × Nat) :=
  if rs < g.screen_lines ∧ re ≤ g.screen_lines ∧ rs ≤ re then some (rs, re) else none

/-- `impl PartialEq for Grid<T>`: compares only `raw`, `cols`, `lines` and
`display_offset`. -/
def eq_impl (a b : Grid α) : Prop :=
  a.raw = b.raw ∧ a.cols = b.cols ∧ a.lines = b.lines ∧
    a.display_offset = b.display_offset

end Grid

/-- Cells for concrete test grids: `Bool`, where `false` is the default,
empty cell and `true` is occupied content. -/
instance : GridCell Bool where
  is_empty b := !b
  dflt := false

/-- Cells for a grid whose cursor template is *not* empty (`is_empty` is the
identity, the template cell below will be `false`): models a cursor template
carrying visible attributes, as the real `Cell` can. -/
structure InkCell where
  ink : Bool
deriving DecidableEq, Repr

instance : GridCell InkCell where
  is_empty c := c.ink
  dflt := ⟨true⟩

/-- The structural invariant of the claims: the buffer covers the screen
(equivalently `total_lines = screen_lines + history_size`), the display
offset never exceeds the history, and the history never exceeds the limit. -/
def Grid.inv {α : Type} (g : Grid α) : Prop :=
  g.lines ≤ g.raw.length ∧
  g.display_offset ≤ g.history_size ∧
  g.history_size ≤ g.max_scroll_limit

/-- States reachable from `Grid::new` by the mutating grid operations
*excluding* `clear_history` (an `Option`-returning operation contributes a
step only when it completes, i.e. when the source call returns). -/
inductive Reached (α : Type) [GridCell α] : Grid α → Prop where
  | init (lines cols limit : Nat) : Reached α (Grid.new α lines cols limit)
  | scroll_up {g g2 : Grid α} (rs re p : Nat) (h : Reached α g)
      (hc : g.scroll_up rs re p = some g2) : Reached α g2
  | scroll_down {g g2 : Grid α} (rs re p : Nat) (h : Reached α g)
      (hc : g.scroll_down rs re p = some g2) : Reached α g2
  | scroll_display {g : Grid α} (s : Scroll) (h : Reached α g) :
      Reached α (g.scroll_display s)
  | update_history {g : Grid α} (n : Nat) (h : Reached α g) :
      Reached α (g.update_history n)
  | clear_viewport {g g2 : Grid α} (h : Reached α g)
      (hc : g.clear_viewport = some g2) : Reached α g2
  | reset {g : Grid α} (h : Reached α g) : Reached α g.reset

/-- States reachable by the operation set of the claim, *including*
`clear_history`. -/
inductive ReachedFull (α : Type) [GridCell α] : Grid α → Prop where
  | init (lines cols limit : Nat) : ReachedFull α (Grid.new α lines cols limit)
  | scroll_up {g g2 : Grid α} (rs re p : Nat) (h : ReachedFull α g)
      (hc : g.scroll_up rs re p = some g2) : ReachedFull α g2
  | scroll_down {g g2 : Grid α} (rs re p : Nat) (h : ReachedFull α g)
      (hc : g.scroll_down rs re p = some g2) : ReachedFull α g2
  | scroll_display {g : Grid α} (s : Scroll) (h : ReachedFull α g) :
      ReachedFull α (g.scroll_display s)
  | update_history {g : Grid α} (n : Nat) (h : ReachedFull α g) :
      ReachedFull α (g.update_history n)
  | clear_viewport {g g2 : Grid α} (h : ReachedFull α g)
      (hc : g.clear_viewport = some g2) : ReachedFull α g2
  | clear_history {g : Grid α} (h : ReachedFull α g) :
      ReachedFull α g.clear_history
  | reset {g : Grid α} (h : ReachedFull α g) : ReachedFull α g.reset

/-! ## Spec-worded definitions

The following definitions restate, in the words of the specification, the
quantities and properties the claims talk about.  They are *not* translations
of the source; the theorems below compare them with the source translations
above. -/

/-- A row of the grid is fully empty when every cell of it is empty. -/
def rowEmpty {α : Type} [GridCell α] (r : List α) : Prop :=
  ∀ c ∈ r, GridCell.is_empty c = true

instance {α : Type} [GridCell α] [DecidableEq α] (r : List α) :
    Decidable (rowEmpty r) := by unfold rowEmpty; infer_instance

/-- Spec wording (claim C3): on a grid with `max_scroll_limit == 0`,
`scroll_up(region, n)` followed by `scroll_down(region, n)` (same region, no
intervening writes) restores the pre-scroll content of the region. -/
def claimC3 {α : Type} [GridCell α] (g : Grid α) : Prop :=
  ∀ rs re p g1 g2, g.scroll_up rs re p = some g1 →
    g1.scroll_down rs re p = some g2 →
    ∀ l, rs ≤ l → l < re →
      g2.raw[g.lines - 1 - l]? = g.raw[g.lines - 1 - l]?

/-- Spec wording (claim C4): starting at absolute row `k` with `rem` rows of
the viewport left, the first row that is not fully empty (or `k + rem` if all
are empty). -/
def firstContentRow {α : Type} [GridCell α] [DecidableEq α] (g : Grid α) :
    Nat → Nat → Nat
  | k, 0 => k
  | k, rem + 1 =>
      if ∀ r, g.raw[k]? = some r → rowEmpty r
      then firstContentRow g (k + 1) rem
      else k

/-- Spec wording (claim C4): the number of fully empty trailing rows at the
bottom of the viewport — the bottommost that many viewport rows (absolute
rows counted from 0 upward) are fully empty, and the next viewport row, if
any, is not. -/
def emptyTrailingRows {α : Type} [GridCell α] [DecidableEq α] (g : Grid α) : Nat :=
  firstContentRow g 0 g.lines

/-- Spec wording (claim C4): `clear_viewport` scrolls the full screen region
up by `positions = emptyTrailingRows` (pushing those empty trailing rows into
history), forces `display_offset` to 0, and resets the newly exposed rows. -/
def claimC4 {α : Type} [GridCell α] [DecidableEq α] (g : Grid α) : Prop :=
  g.clear_viewport =
    (({ g with display_offset := 0 } : Grid α).scroll_up 0 g.lines
        (emptyTrailingRows g)).map
      (fun g2 => { g2 with
        raw := reset_asc g.row_template (emptyTrailingRows g) (g.lines - emptyTrailingRows g) g2.raw })

/-- Spec wording (claim C5): clamp to the bottom-right visible cell when the
point is above the visible window, to the top-left cell when below, and
convert via the inverse of `visible_to_buffer` otherwise.  "Above" follows
the spec's own glossary: absolute rows count from the bottom of the buffer,
so rows `≥ display_offset + screen_lines` lie above the window and rows
`< display_offset` lie below it. -/
def claimC5 {α : Type} (g : Grid α) (pt : Point) : Prop :=
  (g.display_offset + g.lines ≤ pt.line →
    g.clamp_buffer_to_visible pt = ⟨g.lines - 1, g.cols - 1⟩) ∧
  (pt.line < g.display_offset →
    g.clamp_buffer_to_visible pt = ⟨0, 0⟩) ∧
  (g.display_offset ≤ pt.line → pt.line < g.display_offset + g.lines →
    g.clamp_buffer_to_visible pt =
      ⟨g.lines + g.display_offset - pt.line - 1, pt.col⟩)

/-- Spec wording (claim C6): the absolute rows spanned by an inclusive range
of absolute points (whichever endpoint is higher). -/
def rangeRows (r : Point × Point) : Set Nat :=
  Set.Icc (min r.1.line r.2.line) (max r.1.line r.2.line)

/-- Spec wording (claim C6): the whole absolute-row range lies entirely
outside the current viewport window `[display_offset, display_offset +
screen_lines)`. -/
def entirelyOutside {α : Type} (g : Grid α) (r : Point × Point) : Prop :=
  ∀ x ∈ rangeRows r, x < g.display_offset ∨ g.display_offset + g.lines ≤ x

/-- Spec wording (claim C6): `clamp_buffer_range_to_visible` returns `None`
iff the whole range is outside the viewport, and otherwise both endpoints
clamped independently. -/
def claimC6 {α : Type} (g : Grid α) (r : Point × Point) : Prop :=
  (g.clamp_buffer_range_to_visible r = none ↔ entirelyOutside g r) ∧
  (¬ entirelyOutside g r →
    g.clamp_buffer_range_to_visible r =
      some (g.clamp_buffer_to_visible r.1, g.clamp_buffer_to_visible r.2))

/-- Spec wording (claim C7): `next()` returns `None` exactly at the buffer's
topmost-leftmost cell and `prev()` returns `None` exactly at the buffer's
bottommost-rightmost cell.  Topmost = largest absolute row (`total_lines -
1`), bottommost = absolute row 0, leftmost = column 0, rightmost = the last
column. -/
def claimC7 (total cols : Nat) (pt : Point) : Prop :=
  (Grid.next_point cols pt = none ↔ pt = ⟨total - 1, 0⟩) ∧
  (Grid.prev_point total cols pt = none ↔ pt = ⟨0, cols - 1⟩)

instance {α : Type} [GridCell α] [DecidableEq α] (g : Grid α) :
    Decidable (claimC4 g) := by
  unfold claimC4; infer_instance

instance {α : Type} (g : Grid α) (pt : Point) : Decidable (claimC5 g pt) := by
  unfold claimC5; infer_instance

instance (total cols : Nat) (pt : Point) : Decidable (claimC7 total cols pt) := by
  unfold claimC7; infer_instance

/-- Spec wording (claim C8): an out-of-bounds region argument, as the claim
defines it (`start > end`, or either endpoint beyond `screen_lines`). -/
def regionOOB {α : Type} (g : Grid α) (rs re : Nat) : Prop :=
  re < rs ∨ g.lines < rs ∨ g.lines < re

instance {α : Type} (g : Grid α) (rs re : Nat) : Decidable (regionOOB g rs re) := by
  unfold regionOOB; infer_instance

/-- Spec wording (claim C8, for `scroll_up`/`scroll_down`): every
out-of-bounds region argument is rejected by a fatal check at the call
boundary (modelled by `none`) rather than the call completing. -/
def claimC8scroll {α : Type} [GridCell α] (g : Grid α) : Prop :=
  ∀ rs re p, regionOOB g rs re →
    g.scroll_up rs re p = none ∧ g.scroll_down rs re p = none

/-! ## Concrete grids for witnesses and counterexamples -/

/-- A 3-line, 2-column grid with `max_scroll_limit = 5` and rows
`ab`/`cd`/`ef` top to bottom (the concrete scenario of the spec), with `true`
marking occupied cells. -/
def gridScenario : Grid Bool :=
  { Grid.new Bool 3 2 5 with raw := [[true, true], [true, true], [true, true]] }

/-- A 4-line, 1-column grid with no scrollback and mixed row contents. -/
def gridNoHist : Grid Bool :=
  { Grid.new Bool 4 1 0 with raw := [[true], [false], [true], [false]] }

/-- A 2-line, 1-column grid, both viewport cells occupied, ample limit. -/
def gridFullRows : Grid Bool :=
  { Grid.new Bool 2 1 5 with raw := [[true], [true]] }

/-- A 3×2 grid with 3 lines of history, scrolled back by 2 (the visible
window covers absolute rows 2..4). -/
def gridC5w : Grid Bool :=
  { Grid.new Bool 3 2 5 with
      raw := List.replicate 6 [true, true],
      display_offset := 2 }

/-- A 1×1 grid over `InkCell`, whose cursor template is not an empty cell. -/
def gridInk : Grid InkCell :=
  { Grid.new InkCell 1 1 4 with
      cursor := { Cursor.init InkCell with template := ⟨false⟩ },
      raw := [[⟨false⟩]] }

/-- A reachable state with one line of history: a 2×1 grid scrolled up once. -/
def gridC2w : Grid Bool :=
  ((Grid.new Bool 2 1 3).scroll_up 0 2 1).getD (Grid.new Bool 2 1 3)

/-- The state reached by `new(1,1,1)`, `scroll_up(0..1, 1)`,
`scroll_display(Delta(1))`, `clear_history()`: its display offset (1) exceeds
its history size (0). -/
def gridC2cx : Grid Bool :=
  Grid.clear_history
    (Grid.scroll_display
      (((Grid.new Bool 1 1 1).scroll_up 0 1 1).getD (Grid.new Bool 1 1 1))
      (Scroll.delta 1))

/-- Spec wording (claim C9): calling `clear_viewport` twice with no mutation
in between leaves the grid as after one call. -/
def claimC9 {α : Type} [GridCell α] (g : Grid α) : Prop :=
  ∀ g1, g.clear_viewport = some g1 → g1.clear_viewport = some g1

/-- `gridInk` after one `clear_viewport`. -/
def gridInkC9 : Grid InkCell := (gridInk.clear_viewport).getD gridInk

/-- `gridFullRows` after `clear_viewport`. -/
def gridC4w : Grid Bool := (gridFullRows.clear_viewport).getD gridFullRows

/-- `gridNoHist` after `scroll_up(1..3, 1)`. -/
def gridC3up : Grid Bool := (gridNoHist.scroll_up 1 3 1).getD gridNoHist

/-- `gridC3up` after `scroll_down(1..3, 1)`: the round trip of claim C3. -/
def gridC3down : Grid Bool := (gridC3up.scroll_down 1 3 1).getD gridC3up

/-! ## Lemmas about the storage primitives -/

namespace Storage

variable {ρ : Type} {α : Type}

theorem length_swap (l : List ρ) (i j : Nat) : (swap l i j).length = l.length := by
  unfold swap
  cases hi : l[i]? <;> cases hj : l[j]? <;> simp

theorem swap_getElem?_fst (l : List ρ) {i j : Nat} (hi : i < l.length)
    (hj : j < l.length) : (swap l i j)[i]? = l[j]? := by
  unfold swap
  rw [List.getElem?_eq_getElem hi, List.getElem?_eq_getElem hj]
  by_cases hij : i = j
  · subst hij
    rw [List.getElem?_set_eq_of_lt _ (by simpa using hi)]
  · rw [List.getElem?_set_ne (Ne.symm hij), List.getElem?_set_eq_of_lt _ hi]

theorem swap_getElem?_snd (l : List ρ) {i j : Nat} (hi : i < l.length)
    (hj : j < l.length) : (swap l i j)[j]? = l[i]? := by
  unfold swap
  rw [List.getElem?_eq_getElem hi, List.getElem?_eq_getElem hj]
  rw [List.getElem?_set_eq_of_lt _ (by simpa using hj)]

theorem swap_getElem?_other (l : List ρ) {i j k : Nat} (hki : k ≠ i)
    (hkj : k ≠ j) : (swap l i j)[k]? = l[k]? := by
  unfold swap
  cases hi : l[i]? <;> cases hj : l[j]? <;> simp
  rw [List.getElem?_set_ne (Ne.symm hkj), List.getElem?_set_ne (Ne.symm hki)]

theorem length_rotate_neg (l : List ρ) (p : Nat) :
    (rotate_neg l p).length = l.length := by
  unfold rotate_neg; exact List.length_rotate l _

theorem length_rotate_down (l : List ρ) (p : Nat) :
    (rotate_down l p).length = l.length := by
  unfold rotate_down; exact List.length_rotate l p

/-- `rotate_neg` above the rotation amount: index `k` reads old index `k - p`. -/
theorem rotate_neg_getElem?_high (l : List ρ) {p k : Nat} (hp : p ≤ l.length)
    (hk : k < l.length) (hpk : p ≤ k) : (rotate_neg l p)[k]? = l[k - p]? := by
  unfold rotate_neg
  rw [List.getElem?_rotate hk]
  congr 1
  rw [Nat.mod_eq_of_lt (by omega : p < l.length)]
  have : k + (l.length - p) = (k - p) + l.length := by omega
  rw [this, Nat.add_mod_right, Nat.mod_eq_of_lt (by omega)]

/-- `rotate_neg` below the rotation amount: index `k < p` reads the old index
`k + (len - p)` (the wrapped-around tail). -/
theorem rotate_neg_getElem?_low (l : List ρ) {p k : Nat} (hp : p ≤ l.length)
    (hk : k < p) : (rotate_neg l p)[k]? = l[k + (l.length - p)]? := by
  unfold rotate_neg
  rw [List.getElem?_rotate (by omega)]
  congr 1
  rcases Nat.eq_or_lt_of_le hp with h | h
  · subst h
    rw [Nat.mod_self, Nat.sub_zero, Nat.add_mod_right, Nat.sub_self, Nat.add_zero,
      Nat.mod_eq_of_lt (by omega)]
  · rw [Nat.mod_eq_of_lt h, Nat.mod_eq_of_lt (by omega)]

theorem rotate_down_getElem? (l : List ρ) {p k : Nat} (hk : k + p < l.length) :
    (rotate_down l p)[k]? = l[k + p]? := by
  unfold rotate_down
  rw [List.getElem?_rotate (by omega)]
  congr 1
  exact Nat.mod_eq_of_lt hk

theorem length_grow [GridCell α] (l : List (List α)) (n cols : Nat) :
    (grow l n cols).length = l.length + n := by
  unfold grow; simp

theorem grow_getElem?_low [GridCell α] (l : List (List α)) {n cols k : Nat}
    (hk : k < l.length) : (grow l n cols)[k]? = l[k]? := by
  unfold grow; exact List.getElem?_append_left hk

theorem length_shrink (l : List ρ) (n : Nat) :
    (shrink_lines l n).length = l.length - n := by
  unfold shrink_lines; simp

theorem shrink_getElem? (l : List ρ) {n k : Nat} (hk : k < l.length - n) :
    (shrink_lines l n)[k]? = l[k]? := by
  unfold shrink_lines
  simp [List.getElem?_take, hk]

end Storage

/-! ## Characterizations of the loop bodies -/

section Loops

variable {ρ : Type}

theorem length_reset_asc (t : ρ) : ∀ (a c : Nat) (l : List ρ),
    (reset_asc t a c l).length = l.length := by
  intro a c
  induction c generalizing a with
  | zero => intro l; rfl
  | succ c ih => intro l; rw [reset_asc, ih]; simp

theorem reset_asc_getElem?_out (t : ρ) : ∀ (a c : Nat) (l : List ρ) (k : Nat),
    (k < a ∨ a + c ≤ k) → (reset_asc t a c l)[k]? = l[k]? := by
  intro a c
  induction c generalizing a with
  | zero => intro l k _; rfl
  | succ c ih =>
    intro l k hk
    rw [reset_asc, ih (a + 1) _ k (by omega), List.getElem?_set_ne (by omega)]

theorem reset_asc_getElem?_in (t : ρ) : ∀ (a c : Nat) (l : List ρ) (k : Nat),
    a ≤ k → k < a + c → k < l.length → (reset_asc t a c l)[k]? = some t := by
  intro a c
  induction c generalizing a with
  | zero => intro l k h1 h2; omega
  | succ c ih =>
    intro l k h1 h2 hk
    rw [reset_asc]
    by_cases hka : k = a
    · subst hka
      rw [reset_asc_getElem?_out t (k + 1) c _ k (by omega),
        List.getElem?_set_eq_of_lt _ hk]
    · exact ih (a + 1) _ k (by omega) (by omega) (by simpa using hk)

theorem length_reset_lines_asc (t : ρ) (screen : Nat) :
    ∀ (lo c : Nat) (l : List ρ),
    (reset_lines_asc t screen lo c l).length = l.length := by
  intro lo c
  induction c generalizing lo with
  | zero => intro l; rfl
  | succ c ih => intro l; rw [reset_lines_asc, ih]; simp

/-- The indices touched by `reset_lines_asc` are exactly `screen - 1 - i` for
`lo ≤ i < lo + c`; with `lo + c ≤ screen` these form the interval
`[screen - (lo + c), screen - 1 - lo]`, so everything outside it is
unchanged. -/
theorem reset_lines_asc_getElem?_out (t : ρ) (screen : Nat) :
    ∀ (lo c : Nat) (l : List ρ) (k : Nat), lo + c ≤ screen →
    (k < screen - (lo + c) ∨ screen - lo ≤ k) →
    (reset_lines_asc t screen lo c l)[k]? = l[k]? := by
  intro lo c
  induction c generalizing lo with
  | zero => intro l k _ _; rfl
  | succ c ih =>
    intro l k hsc hk
    rw [reset_lines_asc, ih (lo + 1) _ k (by omega) (by omega),
      List.getElem?_set_ne (by omega)]

theorem reset_lines_asc_getElem?_in (t : ρ) (screen : Nat) :
    ∀ (lo c : Nat) (l : List ρ) (k : Nat), lo + c ≤ screen →
    screen - (lo + c) ≤ k → k < screen - lo → k < l.length →
    (reset_lines_asc t screen lo c l)[k]? = some t := by
  intro lo c
  induction c generalizing lo with
  | zero => intro l k _ h1 h2; omega
  | succ c ih =>
    intro l k hsc h1 h2 hk
    rw [reset_lines_asc]
    by_cases hke : k = screen - 1 - lo
    · subst hke
      rw [reset_lines_asc_getElem?_out t screen (lo + 1) c _ _ (by omega) (by omega),
        List.getElem?_set_eq_of_lt _ hk]
    · exact ih (lo + 1) _ k (by omega) (by omega) (by omega) (by simpa using hk)

theorem length_fix_swap_top (screen p : Nat) : ∀ (s : Nat) (l : List ρ),
    (fix_swap_top screen p s l).length = l.length := by
  intro s
  induction s with
  | zero => intro l; rfl
  | succ s ih => intro l; rw [fix_swap_top, ih, Storage.length_swap]

/-- The fixed-top swap loop of `scroll_up` only touches indices in
`[screen - s - p, screen - 1]`. -/
theorem fix_swap_top_getElem?_out (screen p : Nat) : ∀ (s : Nat) (l : List ρ)
    (k : Nat), s ≤ screen → (k + p < screen - s ∨ screen ≤ k) →
    (fix_swap_top screen p s l)[k]? = l[k]? := by
  intro s
  induction s with
  | zero => intro l k _ _; rfl
  | succ s ih =>
    intro l k hs hk
    rw [fix_swap_top, ih _ _ (by omega) (by omega),
      Storage.swap_getElem?_other _ (by omega) (by omega)]

/-- The fixed-top swap loop of `scroll_up` moves the row at index
`A ∈ [screen - s, screen)` to index `A - p` (ready to be rotated back up to
`A`). -/
theorem fix_swap_top_getElem?_moved (screen p : Nat) : ∀ (s : Nat) (l : List ρ)
    (k : Nat), screen ≤ l.length → s ≤ screen → p ≤ screen - s →
    screen - s ≤ k → k < screen →
    (fix_swap_top screen p s l)[k - p]? = l[k]? := by
  intro s
  induction s with
  | zero => intro l k _ _ _ h1 h2; omega
  | succ s ih =>
    intro l k hlen hs hp h1 h2
    rw [fix_swap_top]
    rcases (by omega : k = screen - 1 - s ∨ screen - s ≤ k) with hk | hk
    · subst hk
      rw [fix_swap_top_getElem?_out screen p s _ _ (by omega) (by omega),
        Storage.swap_getElem?_snd _ (by omega) (by omega)]
    · rw [ih _ _ (by rw [Storage.length_swap]; exact hlen) (by omega) (by omega) hk h2,
        Storage.swap_getElem?_other _ (by omega) (by omega)]

theorem length_swap_ascend (p : Nat) : ∀ (a n : Nat) (l : List ρ),
    (swap_ascend p a n l).length = l.length := by
  intro a n
  induction n generalizing a with
  | zero => intro l; rfl
  | succ n ih => intro l; rw [swap_ascend, ih, Storage.length_swap]

/-- The ascending swap run touches only indices in `[a, a + n + p)`. -/
theorem swap_ascend_getElem?_out (p : Nat) : ∀ (a n : Nat) (l : List ρ)
    (k : Nat), (k < a ∨ a + n + p ≤ k) →
    (swap_ascend p a n l)[k]? = l[k]? := by
  intro a n
  induction n generalizing a with
  | zero => intro l k _; rfl
  | succ n ih =>
    intro l k hk
    rw [swap_ascend, ih _ _ _ (by omega),
      Storage.swap_getElem?_other _ (by omega) (by omega)]

/-- The ascending swap run pulls the row at `k + p` down to
`k ∈ [a, a + n)`. -/
theorem swap_ascend_getElem?_shifted (p : Nat) : ∀ (a n : Nat) (l : List ρ)
    (k : Nat), a + n + p ≤ l.length → a ≤ k → k < a + n →
    (swap_ascend p a n l)[k]? = l[k + p]? := by
  intro a n
  induction n generalizing a with
  | zero => intro l k _ h1 h2; omega
  | succ n ih =>
    intro l k hlen h1 h2
    rw [swap_ascend]
    rcases (by omega : k = a ∨ a + 1 ≤ k) with hk | hk
    · subst hk
      rw [swap_ascend_getElem?_out p _ _ _ _ (by omega),
        Storage.swap_getElem?_fst _ (by omega) (by omega)]
    · rw [ih _ _ _ (by rw [Storage.length_swap]; omega) hk (by omega),
        Storage.swap_getElem?_other _ (by omega) (by omega)]

/-- If the `p` rows at `[a, a + p)` all equal `T`, the ascending swap run
leaves `T` everywhere in the leftover zone `[a + n, a + n + p)`. -/
theorem swap_ascend_getElem?_tzone (p : Nat) (T : ρ) : ∀ (a n : Nat)
    (l : List ρ), a + n + p ≤ l.length →
    (∀ j, a ≤ j → j < a + p → l[j]? = some T) →
    ∀ k, a + n ≤ k → k < a + n + p → (swap_ascend p a n l)[k]? = some T := by
  intro a n
  induction n generalizing a with
  | zero => intro l _ hT k h1 h2; exact hT k h1 (by omega)
  | succ n ih =>
    intro l hlen hT k h1 h2
    rw [swap_ascend]
    refine ih _ _ (by rw [Storage.length_swap]; omega) ?_ k (by omega) (by omega)
    intro j hj1 hj2
    rcases (by omega : j = a + p ∨ (a + 1 ≤ j ∧ j < a + p)) with hj | hj
    · subst hj
      rw [Storage.swap_getElem?_snd _ (by omega) (by omega)]
      exact hT a le_rfl (by omega)
    · rw [Storage.swap_getElem?_other _ (by omega) (by omega)]
      exact hT j (by omega) hj.2

theorem length_swap_descend (p : Nat) : ∀ (n : Nat) (l : List ρ),
    (swap_descend p n l).length = l.length := by
  intro n
  induction n with
  | zero => intro l; rfl
  | succ n ih => intro l; rw [swap_descend, ih, Storage.length_swap]

/-- The descending swap run touches only indices below `n + p`. -/
theorem swap_descend_getElem?_out (p : Nat) : ∀ (n : Nat) (l : List ρ)
    (k : Nat), n + p ≤ k → (swap_descend p n l)[k]? = l[k]? := by
  intro n
  induction n with
  | zero => intro l k _; rfl
  | succ n ih =>
    intro l k hk
    rw [swap_descend, ih _ _ (by omega),
      Storage.swap_getElem?_other _ (by omega) (by omega)]

/-- The descending swap run pushes the row at `k < n` up to `k + p`. -/
theorem swap_descend_getElem?_shifted (p : Nat) : ∀ (n : Nat) (l : List ρ)
    (k : Nat), n + p ≤ l.length → k < n →
    (swap_descend p n l)[k + p]? = l[k]? := by
  intro n
  induction n with
  | zero => intro l k _ h; omega
  | succ n ih =>
    intro l k hlen hk
    rw [swap_descend]
    rcases (by omega : k = n ∨ k < n) with hkn | hkn
    · subst hkn
      rw [swap_descend_getElem?_out p _ _ _ (by omega),
        Storage.swap_getElem?_snd _ (by omega) (by omega)]
    · rw [ih _ _ (by rw [Storage.length_swap]; omega) hkn,
        Storage.swap_getElem?_other _ (by omega) (by omega)]

theorem length_swap_down_from (p : Nat) : ∀ (n a : Nat) (l : List ρ),
    (swap_down_from p a n l).length = l.length := by
  intro n
  induction n with
  | zero => intro a l; rfl
  | succ n ih => intro a l; rw [swap_down_from, ih, Storage.length_swap]

/-- The descending-index swap loop starting at `a` touches only indices in
`[a - n + 1 - p, a]`. -/
theorem swap_down_from_getElem?_out (p : Nat) : ∀ (n a : Nat) (l : List ρ)
    (k : Nat), (a < k ∨ k + p + n ≤ a) →
    (swap_down_from p a n l)[k]? = l[k]? := by
  intro n
  induction n with
  | zero => intro a l k _; rfl
  | succ n ih =>
    intro a l k hk
    rw [swap_down_from, ih _ _ _ (by omega),
      Storage.swap_getElem?_other _ (by omega) (by omega)]

/-- The descending-index swap loop pulls the row at `k - p` up to
`k ∈ (a - n, a]`. -/
theorem swap_down_from_getElem?_moved (p : Nat) : ∀ (n a : Nat) (l : List ρ)
    (k : Nat), a < l.length → p + n ≤ a + 1 → a - n < k → k ≤ a →
    (swap_down_from p a n l)[k]? = l[k - p]? := by
  intro n
  induction n with
  | zero => intro a l k _ _ h1 h2; omega
  | succ n ih =>
    intro a l k hlen hpn h1 h2
    rw [swap_down_from]
    rcases (by omega : k = a ∨ (a - 1 - n < k ∧ k ≤ a - 1)) with hk | hk
    · subst hk
      rw [swap_down_from_getElem?_out p _ _ _ _ (by omega),
        Storage.swap_getElem?_fst _ (by omega) (by omega)]
    · rw [ih _ _ _ (by rw [Storage.length_swap]; omega) (by omega) hk.1 hk.2,
        Storage.swap_getElem?_other _ (by omega) (by omega)]

/-- If the `p` rows in `(a - p, a]` all equal `T`, the descending-index swap
loop leaves `T` everywhere in the leftover zone `(a - n - p, a - n]`. -/
theorem swap_down_from_getElem?_tzone (p : Nat) (T : ρ) : ∀ (n a : Nat)
    (l : List ρ), a < l.length → p + n ≤ a + 1 →
    (∀ j, a - p < j → j ≤ a → l[j]? = some T) →
    ∀ k, a - n - p < k → k ≤ a - n →
    (swap_down_from p a n l)[k]? = some T := by
  intro n
  induction n with
  | zero => intro a l _ _ hT k h1 h2; exact hT k (by omega) (by omega)
  | succ n ih =>
    intro a l hlen hpn hT k h1 h2
    rw [swap_down_from]
    refine ih _ _ (by rw [Storage.length_swap]; omega) (by omega) ?_ k (by omega)
      (by omega)
    intro j hj1 hj2
    rcases (by omega : j = a - p ∨ (a - p < j ∧ j ≤ a - 1)) with hj | hj
    · subst hj
      rw [Storage.swap_getElem?_snd _ (by omega) (by omega)]
      exact hT a (by omega) le_rfl
    · rw [Storage.swap_getElem?_other _ (by omega) (by omega)]
      exact hT j hj.1 (by omega)

theorem length_swap_lines_desc (screen p lo : Nat) : ∀ (c : Nat) (l : List ρ),
    (swap_lines_desc screen p lo c l).length = l.length := by
  intro c
  induction c with
  | zero => intro l; rfl
  | succ c ih => intro l; rw [swap_lines_desc, ih, Storage.length_swap]

/-- The subregion swap loop of `scroll_down` is an ascending swap run over the
absolute indices of the region (`swap_lines` turns descending lines into
ascending absolute indices). -/
theorem swap_lines_desc_eq_swap_ascend (screen p lo : Nat) : ∀ (c : Nat)
    (l : List ρ), p ≤ lo → lo + c ≤ screen →
    swap_lines_desc screen p lo c l = swap_ascend p (screen - (lo + c)) c l := by
  intro c
  induction c with
  | zero => intro l _ _; rfl
  | succ c ih =>
    intro l hp hsc
    rw [swap_lines_desc, swap_ascend, ih _ hp (by omega)]
    have h1 : screen - 1 - (lo + c) = screen - (lo + c + 1) := by omega
    have h2 : screen - 1 - (lo + c - p) = screen - (lo + c + 1) + p := by omega
    have h3 : screen - (lo + c) = screen - (lo + c + 1) + 1 := by omega
    rw [h1, h2, h3]
    rfl

end Loops

/-! ## Basic facts about the grid operations -/

namespace Grid

variable {α : Type}

theorem ite_offset_raw (g : Grid α) (c : Prop) [Decidable c] (x : Nat) :
    (if c then { g with display_offset := x } else g).raw = g.raw := by
  split <;> rfl

theorem ite_offset_cols (g : Grid α) (c : Prop) [Decidable c] (x : Nat) :
    (if c then { g with display_offset := x } else g).cols = g.cols := by
  split <;> rfl

theorem ite_offset_lines (g : Grid α) (c : Prop) [Decidable c] (x : Nat) :
    (if c then { g with display_offset := x } else g).lines = g.lines := by
  split <;> rfl

theorem ite_offset_limit (g : Grid α) (c : Prop) [Decidable c] (x : Nat) :
    (if c then { g with display_offset := x } else g).max_scroll_limit =
      g.max_scroll_limit := by
  split <;> rfl

theorem ite_offset_cursor (g : Grid α) (c : Prop) [Decidable c] (x : Nat) :
    (if c then { g with display_offset := x } else g).cursor = g.cursor := by
  split <;> rfl

theorem ite_offset_history (g : Grid α) (c : Prop) [Decidable c] (x : Nat) :
    (if c then { g with display_offset := x } else g).history_size =
      g.history_size := by
  unfold history_size total_lines screen_lines
  split <;> rfl

theorem increase_scroll_limit_raw [GridCell α] (g : Grid α) (p : Nat) :
    (g.increase_scroll_limit p).raw =
      Storage.grow g.raw (min p (g.max_scroll_limit - g.history_size)) g.cols := by
  unfold increase_scroll_limit
  dsimp only
  split
  · rfl
  · rename_i h
    rw [not_not] at h
    rw [h]
    unfold Storage.grow
    simp

theorem increase_scroll_limit_lines [GridCell α] (g : Grid α) (p : Nat) :
    (g.increase_scroll_limit p).lines = g.lines := by
  unfold increase_scroll_limit; dsimp only; split <;> rfl

theorem increase_scroll_limit_cols [GridCell α] (g : Grid α) (p : Nat) :
    (g.increase_scroll_limit p).cols = g.cols := by
  unfold increase_scroll_limit; dsimp only; split <;> rfl

theorem increase_scroll_limit_limit [GridCell α] (g : Grid α) (p : Nat) :
    (g.increase_scroll_limit p).max_scroll_limit = g.max_scroll_limit := by
  unfold increase_scroll_limit; dsimp only; split <;> rfl

theorem increase_scroll_limit_offset [GridCell α] (g : Grid α) (p : Nat) :
    (g.increase_scroll_limit p).display_offset = g.display_offset := by
  unfold increase_scroll_limit; dsimp only; split <;> rfl

theorem increase_scroll_limit_cursor [GridCell α] (g : Grid α) (p : Nat) :
    (g.increase_scroll_limit p).cursor = g.cursor := by
  unfold increase_scroll_limit; dsimp only; split <;> rfl

/-- The raw storage of the general path of `scroll_up`, unfolded to the
composition of its phases over the grown buffer. -/
theorem scroll_up_go_raw [GridCell α] (g : Grid α) (rs re p : Nat) :
    (g.scroll_up_go rs re p).raw =
      swap_ascend p 0 (g.lines - re)
        (reset_asc g.row_template 0 p
          (Storage.rotate_neg
            (fix_swap_top g.lines p rs
              (Storage.grow g.raw (min p (g.max_scroll_limit - g.history_size))
                g.cols)) p)) := by
  unfold scroll_up_go
  dsimp only
  rw [increase_scroll_limit_raw, ite_offset_raw, ite_offset_cols,
    ite_offset_limit, ite_offset_history]

theorem scroll_up_go_lines [GridCell α] (g : Grid α) (rs re p : Nat) :
    (g.scroll_up_go rs re p).lines = g.lines := by
  unfold scroll_up_go
  dsimp only
  rw [increase_scroll_limit_lines, ite_offset_lines]

theorem scroll_up_go_cols [GridCell α] (g : Grid α) (rs re p : Nat) :
    (g.scroll_up_go rs re p).cols = g.cols := by
  unfold scroll_up_go
  dsimp only
  rw [increase_scroll_limit_cols, ite_offset_cols]

theorem scroll_up_go_limit [GridCell α] (g : Grid α) (rs re p : Nat) :
    (g.scroll_up_go rs re p).max_scroll_limit = g.max_scroll_limit := by
  unfold scroll_up_go
  dsimp only
  rw [increase_scroll_limit_limit, ite_offset_limit]

theorem scroll_up_go_cursor [GridCell α] (g : Grid α) (rs re p : Nat) :
    (g.scroll_up_go rs re p).cursor = g.cursor := by
  unfold scroll_up_go
  dsimp only
  rw [increase_scroll_limit_cursor, ite_offset_cursor]

theorem scroll_up_go_offset [GridCell α] (g : Grid α) (rs re p : Nat) :
    (g.scroll_up_go rs re p).display_offset =
      (if g.display_offset ≠ 0
        then min (g.display_offset + p) g.max_scroll_limit
        else g.display_offset) := by
  unfold scroll_up_go
  dsimp only
  rw [increase_scroll_limit_offset]
  split <;> rfl

theorem scroll_up_go_raw_length [GridCell α] (g : Grid α) (rs re p : Nat) :
    (g.scroll_up_go rs re p).raw.length = g.grown_len p := by
  rw [scroll_up_go_raw, length_swap_ascend, length_reset_asc,
    Storage.length_rotate_neg, length_fix_swap_top, Storage.length_grow]
  rfl

/-- From a completed `scroll_up` call, the branch taken and the result. -/
theorem scroll_up_eq_cases [GridCell α] {g g2 : Grid α} {rs re p : Nat}
    (hcall : g.scroll_up rs re p = some g2) :
    rs ≤ re ∧
    ((re - rs ≤ p ∧ rs ≠ 0 ∧ g.reset_region_ok rs re ∧
        g2 = { g with raw := reset_lines_asc g.row_template g.lines rs (re - rs) g.raw }) ∨
      (¬(re - rs ≤ p ∧ rs ≠ 0) ∧ g.scroll_up_ok rs re p ∧
        g2 = g.scroll_up_go rs re p)) := by
  unfold scroll_up at hcall
  split at hcall
  · exact absurd hcall (by simp)
  rename_i hle
  refine ⟨by omega, ?_⟩
  split at hcall
  · rename_i hcond
    split at hcall
    · rename_i hok
      exact Or.inl ⟨hcond.1, hcond.2, hok, (Option.some.inj hcall).symm⟩
    · exact absurd hcall (by simp)
  · rename_i hcond
    split at hcall
    · rename_i hok
      exact Or.inr ⟨hcond, hok, (Option.some.inj hcall).symm⟩
    · exact absurd hcall (by simp)

/-- From a completed `scroll_down` call, the branch taken and the result. -/
theorem scroll_down_eq_cases [GridCell α] {g g2 : Grid α} {rs re p : Nat}
    (hcall : g.scroll_down rs re p = some g2) :
    rs ≤ re ∧
    ((re - rs ≤ p ∧ g.reset_region_ok rs re ∧
        g2 = { g with raw := reset_lines_asc g.row_template g.lines rs (re - rs) g.raw }) ∨
      (¬(re - rs ≤ p) ∧ g.max_scroll_limit = 0 ∧ g.scroll_down_rot_ok rs re p ∧
        g2 = g.scroll_down_rot rs re p) ∨
      (¬(re - rs ≤ p) ∧ g.max_scroll_limit ≠ 0 ∧
        (re ≤ g.lines ∧ g.lines - 1 - rs < g.raw.length) ∧
        g2 = g.scroll_down_sub rs re p)) := by
  unfold scroll_down at hcall
  split at hcall
  · exact absurd hcall (by simp)
  rename_i hle
  refine ⟨by omega, ?_⟩
  split at hcall
  · rename_i hcond
    split at hcall
    · rename_i hok
      exact Or.inl ⟨hcond, hok, (Option.some.inj hcall).symm⟩
    · exact absurd hcall (by simp)
  · rename_i hcond
    split at hcall
    · rename_i hlim
      split at hcall
      · rename_i hok
        exact Or.inr (Or.inl ⟨hcond, hlim, hok, (Option.some.inj hcall).symm⟩)
      · exact absurd hcall (by simp)
    · rename_i hlim
      split at hcall
      · rename_i hok
        exact Or.inr (Or.inr ⟨hcond, hlim, hok, (Option.some.inj hcall).symm⟩)
      · exact absurd hcall (by simp)

/-! ## Scrolling preserves rows outside the region -/

/-- The reset branch shared by both scroll directions only touches the rows
of the region. -/
theorem reset_branch_preserved (tmpl : List α) (screen rs re : Nat)
    (raw : List (List α)) (hrs : rs ≤ re) (hre : re ≤ screen) (l : Nat)
    (hl : l < screen) (hout : l < rs ∨ re ≤ l) :
    (reset_lines_asc tmpl screen rs (re - rs) raw)[screen - 1 - l]? =
      raw[screen - 1 - l]? := by
  apply reset_lines_asc_getElem?_out tmpl screen rs (re - rs) raw _ (by omega)
  omega

/-- Rows of viewport lines outside the region are untouched by `scroll_up`
(`screen - 1 - l` is the absolute index of viewport line `l`). -/
theorem scroll_up_outside_preserved [GridCell α] {g g2 : Grid α} {rs re p : Nat}
    (hcall : g.scroll_up rs re p = some g2) (hre : re ≤ g.lines) (l : Nat)
    (hl : l < g.lines) (hout : l < rs ∨ re ≤ l) :
    g2.raw[g.lines - 1 - l]? = g.raw[g.lines - 1 - l]? := by
  obtain ⟨hle, hcases⟩ := scroll_up_eq_cases hcall
  rcases hcases with ⟨hcond, hrs0, hok, rfl⟩ | ⟨hcond, hok, rfl⟩
  · exact reset_branch_preserved _ _ _ _ _ hle hre l hl hout
  · obtain ⟨hscr, hlim, hrs, hp0, hplen, hre2, hfix⟩ := hok
    rw [scroll_up_go_raw]
    set raw2 := Storage.grow g.raw (min p (g.max_scroll_limit - g.history_size))
      g.cols with hraw2
    have hlen2 : raw2.length = g.grown_len p := by
      rw [hraw2, Storage.length_grow]; rfl
    have hlenle : g.raw.length ≤ raw2.length := by
      rw [hlen2]; unfold grown_len; omega
    have hsame : ∀ k, k < g.raw.length → raw2[k]? = g.raw[k]? := by
      intro k hk
      exact Storage.grow_getElem?_low _ hk
    have hAlt : g.lines - 1 - l < g.raw.length := by omega
    rcases hout with hout | hout
    · -- fixed lines above the region
      have hrsne : rs ≠ 0 := by omega
      have hplt : p < re - rs := by omega
      have hple : p ≤ g.lines - rs := by
        rcases hp0 with h | h
        · omega
        · exact h
      rw [swap_ascend_getElem?_out p _ _ _ _ (by omega),
        reset_asc_getElem?_out _ _ _ _ _ (by omega),
        Storage.rotate_neg_getElem?_high _ (by rw [length_fix_swap_top]; omega)
          (by rw [length_fix_swap_top]; omega) (by omega)]
      have heq : g.lines - 1 - l - p = (g.lines - 1 - l) - p := rfl
      rw [fix_swap_top_getElem?_moved g.lines p rs raw2 (g.lines - 1 - l)
        (by omega) hrs hple (by omega) (by omega)]
      exact hsame _ hAlt
    · -- fixed lines below the region
      have hfixA : g.lines - 1 - l < g.lines - re := by omega
      have hfixpos : 1 ≤ g.lines - re := by omega
      have hfixlen : g.lines - re + p ≤ raw2.length := by
        rcases hfix with h | h
        · omega
        · omega
      rw [swap_ascend_getElem?_shifted p 0 (g.lines - re) _ _
          (by rw [length_reset_asc, Storage.length_rotate_neg, length_fix_swap_top]
              omega)
          (by omega) (by omega),
        reset_asc_getElem?_out _ _ _ _ _ (by omega),
        Storage.rotate_neg_getElem?_high _
          (by rw [length_fix_swap_top]; omega)
          (by rw [length_fix_swap_top]; omega) (by omega),
        Nat.add_sub_cancel]
      rcases Nat.eq_zero_or_pos rs with hrs0 | hrs0
      · subst hrs0
        show raw2[g.lines - 1 - l]? = _
        exact hsame _ hAlt
      · have hplt : p < re - rs := by omega
        rw [fix_swap_top_getElem?_out g.lines p rs raw2 _ (by omega) (by omega)]
        exact hsame _ hAlt

theorem scroll_down_rot_raw [GridCell α] (g : Grid α) (rs re p : Nat) :
    (g.scroll_down_rot rs re p).raw =
      swap_down_from p (g.lines - 1) rs
        (reset_lines_asc g.row_template g.lines 0 p
          (Storage.rotate_down (swap_descend p (g.lines - re) g.raw) p)) := rfl

theorem scroll_down_sub_raw [GridCell α] (g : Grid α) (rs re p : Nat) :
    (g.scroll_down_sub rs re p).raw =
      reset_lines_asc g.row_template g.lines rs p
        (swap_lines_desc g.lines p (rs + p) (re - (rs + p)) g.raw) := rfl

/-- Rows of viewport lines outside the region are untouched by
`scroll_down`. -/
theorem scroll_down_outside_preserved [GridCell α] {g g2 : Grid α}
    {rs re p : Nat} (hcall : g.scroll_down rs re p = some g2)
    (hre : re ≤ g.lines) (l : Nat) (hl : l < g.lines)
    (hout : l < rs ∨ re ≤ l) :
    g2.raw[g.lines - 1 - l]? = g.raw[g.lines - 1 - l]? := by
  obtain ⟨hle, hcases⟩ := scroll_down_eq_cases hcall
  rcases hcases with ⟨hcond, hok, rfl⟩ | ⟨hcond, hlim, hok, rfl⟩ |
    ⟨hcond, hlim, hok, rfl⟩
  · exact reset_branch_preserved _ _ _ _ _ hle hre l hl hout
  · -- whole-buffer-rotation strategy
    obtain ⟨hre2, hfix, hp0, hrs0⟩ := hok
    have hplt : p < re - rs := by omega
    rw [scroll_down_rot_raw]
    rcases hout with hout | hout
    · -- fixed lines above the region
      have hlen : g.lines ≤ g.raw.length := by
        rcases hrs0 with h | h
        · omega
        · exact h
      have hA1 : g.lines - rs ≤ g.lines - 1 - l := by omega
      have hA2 : g.lines - 1 - l < g.lines := by omega
      have hpA : p < g.lines - 1 - l + 1 := by omega
      rw [swap_down_from_getElem?_moved p rs (g.lines - 1) _ _
          (by rw [length_reset_lines_asc, Storage.length_rotate_down,
                length_swap_descend]
              omega)
          (by omega) (by omega) (by omega),
        reset_lines_asc_getElem?_out _ _ _ _ _ _ (by omega) (by omega)]
      have heq : (g.lines - 1 - l - p) + p = g.lines - 1 - l := by omega
      rw [show (Storage.rotate_down (swap_descend p (g.lines - re) g.raw)
            p)[g.lines - 1 - l - p]? =
          (swap_descend p (g.lines - re) g.raw)[(g.lines - 1 - l - p) + p]? from
          Storage.rotate_down_getElem? _
            (by rw [length_swap_descend]; omega),
        heq, swap_descend_getElem?_out p _ _ _ (by omega)]
    · -- fixed lines below the region
      have hA : g.lines - 1 - l < g.lines - re := by omega
      have hfixlen : g.lines - re + p ≤ g.raw.length := by
        rcases hfix with h | h
        · omega
        · omega
      rw [swap_down_from_getElem?_out p _ _ _ _ (by omega),
        reset_lines_asc_getElem?_out _ _ _ _ _ _ (by omega) (by omega),
        Storage.rotate_down_getElem? _ (by rw [length_swap_descend]; omega),
        swap_descend_getElem?_shifted p _ _ _ (by omega) (by omega)]
  · -- subregion strategy
    obtain ⟨hre2, hrslen⟩ := hok
    have hplt : p < re - rs := by omega
    rw [scroll_down_sub_raw,
      swap_lines_desc_eq_swap_ascend g.lines p (rs + p) _ _ (by omega) (by omega)]
    have hidx : g.lines - (rs + p + (re - (rs + p))) = g.lines - re := by omega
    rcases hout with hout | hout
    · rw [reset_lines_asc_getElem?_out _ _ _ _ _ _ (by omega) (by omega),
        swap_ascend_getElem?_out p _ _ _ _ (by omega)]
    · rw [reset_lines_asc_getElem?_out _ _ _ _ _ _ (by omega) (by omega),
        swap_ascend_getElem?_out p _ _ _ _ (by omega)]

end Grid

/-- Claim C1: for every grid, every region within `[0, screen_lines]` and
every positions count, a completed `scroll_up(region, positions)` or
`scroll_down(region, positions)` call leaves every cell in viewport lines
outside the region — lines in `[0, region.start)` and
`[region.end, screen_lines)` — bit-identical to its value before the call.
(Viewport line `l` is the row at absolute index `screen_lines - 1 - l`;
row equality is cell-by-cell bit-identity.  A call that panics produces no
resulting state and is recorded as `none`.) -/
theorem claim_C1_region_isolation {α : Type} [GridCell α] (g : Grid α)
    (rs re p l : Nat) (hrs : rs ≤ re) (hre : re ≤ g.lines)
    (hout : l < rs ∨ (re ≤ l ∧ l < g.lines)) :
    (∀ g2, g.scroll_up rs re p = some g2 →
      g2.raw[g.lines - 1 - l]? = g.raw[g.lines - 1 - l]?) ∧
    (∀ g2, g.scroll_down rs re p = some g2 →
      g2.raw[g.lines - 1 - l]? = g.raw[g.lines - 1 - l]?) := by
  have hl : l < g.lines := by omega
  exact ⟨fun g2 hcall =>
      Grid.scroll_up_outside_preserved hcall hre l hl (by omega),
    fun g2 hcall =>
      Grid.scroll_down_outside_preserved hcall hre l hl (by omega)⟩

/-- Witness for C1: on the 3×2 scenario grid, scrolling the region
`Line(1)..Line(2)` by one line leaves viewport lines 0 and 2 untouched, in
both directions; both calls complete. -/
theorem claim_C1_region_isolation_witness :
    (1 ≤ 2 ∧ 2 ≤ gridScenario.lines ∧ (0 < 1 ∨ (2 ≤ 0 ∧ 0 < gridScenario.lines))) ∧
    ((∀ g2, gridScenario.scroll_up 1 2 1 = some g2 →
        g2.raw[gridScenario.lines - 1 - 0]? = gridScenario.raw[gridScenario.lines - 1 - 0]?) ∧
      (∀ g2, gridScenario.scroll_down 1 2 1 = some g2 →
        g2.raw[gridScenario.lines - 1 - 0]? = gridScenario.raw[gridScenario.lines - 1 - 0]?)) ∧
    (gridScenario.scroll_up 1 2 1).isSome = true ∧
    (gridScenario.scroll_down 1 2 1).isSome = true :=
  ⟨⟨by decide, by decide, by decide⟩,
    claim_C1_region_isolation gridScenario 1 2 1 0 (by decide) (by decide)
      (by decide),
    by decide, by decide⟩

/-! ## The grid invariant is preserved by the operations (without
`clear_history`) -/

namespace Grid

variable {α : Type}

theorem inv_new [GridCell α] (lines cols limit : Nat) :
    (Grid.new α lines cols limit).inv := by
  unfold inv Grid.new history_size total_lines screen_lines
  simp

theorem scroll_up_some_inv [GridCell α] {g g2 : Grid α} {rs re p : Nat}
    (hcall : g.scroll_up rs re p = some g2) (hinv : g.inv) : g2.inv := by
  obtain ⟨hle, hcases⟩ := scroll_up_eq_cases hcall
  unfold inv history_size total_lines screen_lines at hinv ⊢
  rcases hcases with ⟨_, _, _, rfl⟩ | ⟨_, hok, rfl⟩
  · dsimp only
    rw [length_reset_lines_asc]
    exact hinv
  · rw [scroll_up_go_lines, scroll_up_go_raw_length, scroll_up_go_limit,
      scroll_up_go_offset]
    unfold grown_len history_size total_lines screen_lines
    split <;> omega

theorem scroll_down_some_inv [GridCell α] {g g2 : Grid α} {rs re p : Nat}
    (hcall : g.scroll_down rs re p = some g2) (hinv : g.inv) : g2.inv := by
  obtain ⟨hle, hcases⟩ := scroll_down_eq_cases hcall
  unfold inv history_size total_lines screen_lines at hinv ⊢
  rcases hcases with ⟨_, _, rfl⟩ | ⟨_, _, _, rfl⟩ | ⟨_, _, _, rfl⟩
  · dsimp only
    rw [length_reset_lines_asc]
    exact hinv
  · show g.lines ≤ (g.scroll_down_rot rs re p).raw.length ∧ _
    rw [scroll_down_rot_raw, length_swap_down_from, length_reset_lines_asc,
      Storage.length_rotate_down, length_swap_descend]
    exact hinv
  · show g.lines ≤ (g.scroll_down_sub rs re p).raw.length ∧ _
    rw [scroll_down_sub_raw, length_reset_lines_asc, length_swap_lines_desc]
    exact hinv

theorem scroll_display_inv [GridCell α] {g : Grid α} (s : Scroll)
    (hinv : g.inv) : (g.scroll_display s).inv := by
  unfold inv history_size total_lines screen_lines at hinv ⊢
  unfold scroll_display
  dsimp only
  refine ⟨hinv.1, ?_, hinv.2.2⟩
  cases s
  · exact min_le_right _ _
  · exact min_le_right _ _
  · exact le_trans (Nat.sub_le _ _) hinv.2.1
  · exact le_rfl
  · exact Nat.zero_le _

theorem update_history_inv [GridCell α] {g : Grid α} (n : Nat)
    (hinv : g.inv) : (g.update_history n).inv := by
  unfold inv history_size total_lines screen_lines at hinv ⊢
  unfold update_history history_size total_lines screen_lines
  dsimp only
  split
  · dsimp only
    rw [Storage.length_shrink]
    refine ⟨by omega, ?_, by omega⟩
    have : min g.display_offset n ≤ n := min_le_right _ _
    omega
  · refine ⟨hinv.1, ?_, by omega⟩
    have h1 : min g.display_offset n ≤ g.display_offset := min_le_left _ _
    have h2 : min g.display_offset n ≤ n := min_le_right _ _
    omega

/-- From a completed `clear_viewport` call: the guard held, and the result is
the final reset applied to a completed full-screen `scroll_up` on the grid
with its display offset forced to 0. -/
theorem clear_viewport_eq_cases [GridCell α] {g g2 : Grid α}
    (hcall : g.clear_viewport = some g2) :
    (1 ≤ g.cols ∧ g.raw.all (fun r => g.cols ≤ r.length) = true) ∧
    ∃ g', ({ g with display_offset := 0 } : Grid α).scroll_up 0 g.lines
        g.clear_positions = some g' ∧
      g2 = { g' with raw := (reset_asc g.row_template g.clear_positions
                (g.lines - g.clear_positions) g'.raw) } := by
  unfold clear_viewport at hcall
  split at hcall
  · rename_i hguard
    refine ⟨by exact_mod_cast hguard, ?_⟩
    dsimp only at hcall
    split at hcall
    · rename_i g' heq
      exact ⟨g', heq, (Option.some.inj hcall).symm⟩
    · exact absurd hcall (by simp)
  · exact absurd hcall (by simp)

theorem clear_viewport_some_inv [GridCell α] {g g2 : Grid α}
    (hcall : g.clear_viewport = some g2) (hinv : g.inv) : g2.inv := by
  obtain ⟨hguard, g', hup, rfl⟩ := clear_viewport_eq_cases hcall
  have hinv0 : ({ g with display_offset := 0 } : Grid α).inv := by
    unfold inv history_size total_lines screen_lines at hinv ⊢
    dsimp only
    exact ⟨hinv.1, by omega, hinv.2.2⟩
  have hinv' := scroll_up_some_inv hup hinv0
  unfold inv history_size total_lines screen_lines at hinv' ⊢
  dsimp only
  rw [length_reset_asc]
  exact hinv'

theorem reset_inv [GridCell α] {g : Grid α} (hinv : g.inv) : g.reset.inv := by
  unfold inv history_size total_lines screen_lines at hinv ⊢
  unfold reset clear_history Grid.history_size Grid.total_lines Grid.screen_lines
  dsimp only
  rw [length_reset_asc, Storage.length_shrink]
  omega

/-- A completed `scroll_up` changes neither the viewport dimensions nor the
scroll limit nor the cursor. -/
theorem scroll_up_some_fields [GridCell α] {g g2 : Grid α} {rs re p : Nat}
    (hcall : g.scroll_up rs re p = some g2) :
    g2.lines = g.lines ∧ g2.cols = g.cols ∧
    g2.max_scroll_limit = g.max_scroll_limit ∧ g2.cursor = g.cursor := by
  obtain ⟨_, hcases⟩ := scroll_up_eq_cases hcall
  rcases hcases with ⟨_, _, _, rfl⟩ | ⟨_, _, rfl⟩
  · exact ⟨rfl, rfl, rfl, rfl⟩
  · exact ⟨scroll_up_go_lines g rs re p, scroll_up_go_cols g rs re p,
      scroll_up_go_limit g rs re p, scroll_up_go_cursor g rs re p⟩

/-- With no scrollback configured, a completed `scroll_up` never grows the
storage. -/
theorem scroll_up_some_length_nohist [GridCell α] {g g2 : Grid α}
    {rs re p : Nat} (hlim : g.max_scroll_limit = 0)
    (hcall : g.scroll_up rs re p = some g2) :
    g2.raw.length = g.raw.length := by
  obtain ⟨_, hcases⟩ := scroll_up_eq_cases hcall
  rcases hcases with ⟨_, _, _, rfl⟩ | ⟨_, _, rfl⟩
  · exact length_reset_lines_asc _ _ _ _ _
  · rw [scroll_up_go_raw_length]
    unfold grown_len
    rw [hlim]
    simp

/-- Inside-region characterization of `scroll_up` with no scrollback: the
region's rows move up by `p` positions, and rows rotated in at the region's
bottom end are the template row.  (The top `p` rows of the region are
overwritten — their content is lost, there being no history to keep it.) -/
theorem scroll_up_inside_nohist [GridCell α] {g g1 : Grid α} {rs re p : Nat}
    (hlim : g.max_scroll_limit = 0) (hlen : g.raw.length = g.lines)
    (hre : re ≤ g.lines) (hcall : g.scroll_up rs re p = some g1) (l : Nat)
    (hrl : rs ≤ l) (hlre : l < re) :
    (l + p < re → g1.raw[g.lines - 1 - l]? = g.raw[g.lines - 1 - (l + p)]?) ∧
    (re ≤ l + p → g1.raw[g.lines - 1 - l]? = some g.row_template) := by
  obtain ⟨hle, hcases⟩ := scroll_up_eq_cases hcall
  have hmin : min p (g.max_scroll_limit - g.history_size) = 0 := by
    rw [hlim]
    simp [Nat.zero_sub]
  rcases hcases with ⟨hcond, hrs0, hok, rfl⟩ | ⟨hcond, hok, rfl⟩
  · refine ⟨fun h => by omega, fun h => ?_⟩
    exact reset_lines_asc_getElem?_in _ _ _ _ _ _ (by omega) (by omega) (by omega)
      (by omega)
  · obtain ⟨hscr, hlimle, hrs, hp0, hplen, hre2, hfix⟩ := hok
    have hgl : g.grown_len p = g.lines := by
      unfold grown_len
      rw [hmin]
      omega
    have hplines : p ≤ g.lines := by
      rw [hgl] at hplen
      exact hplen
    have hfix2 : g.lines - re + p ≤ g.lines := by
      rw [hgl] at hfix
      rcases hfix with h | h <;> omega
    rw [scroll_up_go_raw, hmin]
    have hlen2 : (Storage.grow g.raw 0 g.cols).length = g.lines := by
      rw [Storage.length_grow]
      omega
    constructor
    · intro h
      have hA : g.lines - re + p ≤ g.lines - 1 - l ∧
          g.lines - 1 - l < g.lines - rs := by omega
      rw [swap_ascend_getElem?_out p _ _ _ _ (by omega),
        reset_asc_getElem?_out _ _ _ _ _ (by omega),
        Storage.rotate_neg_getElem?_high _
          (by rw [length_fix_swap_top]; omega)
          (by rw [length_fix_swap_top]; omega) (by omega),
        fix_swap_top_getElem?_out g.lines p rs _ _ (by omega) (by omega),
        Storage.grow_getElem?_low _ (by omega)]
      congr 1
      omega
    · intro h
      have hp1 : 1 ≤ p := by omega
      apply swap_ascend_getElem?_tzone p g.row_template 0 (g.lines - re) _
        (by rw [length_reset_asc, Storage.length_rotate_neg,
              length_fix_swap_top]
            omega)
        _ _ (by omega) (by omega)
      intro j hj1 hj2
      exact reset_asc_getElem?_in _ _ _ _ _ (by omega) (by omega)
        (by rw [Storage.length_rotate_neg, length_fix_swap_top]; omega)

/-- Inside-region characterization of `scroll_down` with no scrollback: the
region's rows move down by `p` positions, and the `p` rows at the region's
top end become the template row. -/
theorem scroll_down_inside_nohist [GridCell α] {g g2 : Grid α} {rs re p : Nat}
    (hlim : g.max_scroll_limit = 0) (hlen : g.raw.length = g.lines)
    (hre : re ≤ g.lines) (hcall : g.scroll_down rs re p = some g2) (l : Nat)
    (hrl : rs ≤ l) (hlre : l < re) :
    (l < rs + p → g2.raw[g.lines - 1 - l]? = some g.row_template) ∧
    (rs + p ≤ l → g2.raw[g.lines - 1 - l]? = g.raw[g.lines - 1 - (l - p)]?) := by
  obtain ⟨hle, hcases⟩ := scroll_down_eq_cases hcall
  rcases hcases with ⟨hcond, hok, rfl⟩ | ⟨hcond, hlim0, hok, rfl⟩ |
    ⟨hcond, hlimne, hok, rfl⟩
  · refine ⟨fun h => ?_, fun h => by omega⟩
    exact reset_lines_asc_getElem?_in _ _ _ _ _ _ (by omega) (by omega) (by omega)
      (by omega)
  · obtain ⟨hre2, hfix, hp0, hrs0⟩ := hok
    have hplt : p < re - rs := by omega
    have hlines1 : 1 ≤ g.lines := by omega
    rw [scroll_down_rot_raw]
    constructor
    · intro h
      apply swap_down_from_getElem?_tzone p g.row_template rs (g.lines - 1) _
        (by rw [length_reset_lines_asc, Storage.length_rotate_down,
              length_swap_descend]
            omega)
        (by omega) _ _ (by omega) (by omega)
      intro j hj1 hj2
      exact reset_lines_asc_getElem?_in _ _ _ _ _ _ (by omega) (by omega)
        (by omega)
        (by rw [Storage.length_rotate_down, length_swap_descend]; omega)
    · intro h
      have hA : g.lines - re ≤ g.lines - 1 - l ∧
          g.lines - 1 - l ≤ g.lines - 1 - rs - p := by omega
      rw [swap_down_from_getElem?_out p _ _ _ _ (by omega),
        reset_lines_asc_getElem?_out _ _ _ _ _ _ (by omega) (by omega),
        Storage.rotate_down_getElem? _ (by rw [length_swap_descend]; omega),
        swap_descend_getElem?_out p _ _ _ (by omega)]
      congr 1
      omega
  · exact absurd hlim (by rw [hlim] at hlimne; exact absurd rfl hlimne)

end Grid

/-- Claim C2 (amended): in every state reachable from
`Grid::new(lines, cols, max_scroll_limit)` by any sequence of `scroll_up`,
`scroll_down`, `scroll_display`, `update_history`, `clear_viewport` and
`reset` calls — the claim's list *without* `clear_history` —
`total_lines() = screen_lines() + history_size()` and
`0 ≤ display_offset ≤ history_size() ≤ max_scroll_limit`. -/
theorem claim_C2_amended {α : Type} [GridCell α] (g : Grid α)
    (h : Reached α g) :
    g.total_lines = g.screen_lines + g.history_size ∧
    g.display_offset ≤ g.history_size ∧
    g.history_size ≤ g.max_scroll_limit := by
  have hinv : g.inv := by
    induction h with
    | init lines cols limit => exact Grid.inv_new lines cols limit
    | scroll_up rs re p h hc ih => exact Grid.scroll_up_some_inv hc ih
    | scroll_down rs re p h hc ih => exact Grid.scroll_down_some_inv hc ih
    | scroll_display s h ih => exact Grid.scroll_display_inv s ih
    | update_history n h ih => exact Grid.update_history_inv n ih
    | clear_viewport h hc ih => exact Grid.clear_viewport_some_inv hc ih
    | reset h ih => exact Grid.reset_inv ih
  obtain ⟨h1, h2, h3⟩ := hinv
  refine ⟨?_, h2, h3⟩
  unfold Grid.history_size Grid.total_lines Grid.screen_lines
  omega

/-- Witness for the amended C2: the invariant evaluated on a state reached by
an actual `scroll_up` from `new(2, 1, 3)`. -/
theorem claim_C2_amended_witness :
    gridC2w.total_lines = gridC2w.screen_lines + gridC2w.history_size ∧
    gridC2w.display_offset ≤ gridC2w.history_size ∧
    gridC2w.history_size ≤ gridC2w.max_scroll_limit :=
  claim_C2_amended gridC2w
    (Reached.scroll_up 0 2 1 (Reached.init 2 1 3) (by decide))

/-- Counterexample to claim C2: `clear_history` is among the claim's
operations, but it does not reclamp the display offset; after `new(1,1,1)`,
`scroll_up(0..1, 1)`, `scroll_display(Delta(1))`, `clear_history()` the
reachable state has `display_offset = 1 > 0 = history_size()`, violating the
claimed invariant. -/
theorem claim_C2_counterexample :
    ReachedFull Bool gridC2cx ∧
      gridC2cx.history_size < gridC2cx.display_offset :=
  ⟨ReachedFull.clear_history
      (ReachedFull.scroll_display (Scroll.delta 1)
        (ReachedFull.scroll_up 0 1 1 (ReachedFull.init 1 1 1) (by decide))),
    by decide⟩

/-! ## Characterization of the backward scan of `clear_viewport` -/

namespace Grid

variable {α : Type} [GridCell α]

/-- Walking a row of empty cells: from column `c` the scan reaches column 0
of the same row. -/
theorem scan_back_row (g : Grid α) (k : Nat) (hk : k < g.lines) :
    ∀ c, c ≤ g.cols → (∀ j, j < c → g.cell_empty ⟨k, j⟩ = true) →
    ∀ fuel, scan_back g (fuel + c) ⟨k, c⟩ = scan_back g fuel ⟨k, 0⟩ := by
  intro c
  induction c with
  | zero => intro _ _ fuel; rfl
  | succ c ih =>
    intro hc hemp fuel
    show scan_back g (fuel + c + 1) ⟨k, c + 1⟩ = _
    rw [scan_back]
    have hprev : prev_point g.total_lines g.cols ⟨k, c + 1⟩ = some ⟨k, c⟩ := by
      unfold prev_point
      rw [if_neg (by simp), if_neg (by simp)]
      rfl
    rw [hprev]
    dsimp only
    rw [if_pos ⟨hemp c (by omega), hk⟩]
    exact ih (by omega) (fun j hj => hemp j (by omega)) fuel

/-- One scan step from column 0 of a row that is not the buffer top: the scan
moves to the last column of the row above and stops there unless that cell is
empty and still in the viewport. -/
theorem scan_back_wrap (g : Grid α) (k fuel : Nat)
    (hk : k ≠ g.total_lines - 1) :
    scan_back g (fuel + 1) ⟨k, 0⟩ =
      (if g.cell_empty ⟨k + 1, g.cols - 1⟩ = true ∧ k + 1 < g.lines
        then scan_back g fuel ⟨k + 1, g.cols - 1⟩
        else ⟨k + 1, g.cols - 1⟩) := by
  rw [scan_back]
  have hprev : prev_point g.total_lines g.cols ⟨k, 0⟩ =
      some ⟨k + 1, g.cols - 1⟩ := by
    unfold prev_point
    rw [if_neg (by simp [hk]), if_pos (by simp)]
  rw [hprev]

/-- At column 0 of the buffer's top row the backward iterator yields `None`
and the scan stops. -/
theorem scan_back_top (g : Grid α) (k fuel : Nat)
    (hk : k = g.total_lines - 1) :
    scan_back g (fuel + 1) ⟨k, 0⟩ = ⟨k, 0⟩ := by
  rw [scan_back]
  have hprev : prev_point g.total_lines g.cols ⟨k, 0⟩ = none := by
    unfold prev_point
    rw [if_pos (by simp [hk])]
  rw [hprev]

/-- Crossing one fully empty, visible row: from column 0 of row `k` the scan
reaches column 0 of row `k + 1`, consuming `cols` fuel. -/
theorem scan_back_full_row (g : Grid α) (k : Nat) (hc : 1 ≤ g.cols)
    (hk1 : k + 1 < g.lines) (hlen : g.lines ≤ g.total_lines)
    (hemp : ∀ j, j < g.cols → g.cell_empty ⟨k + 1, j⟩ = true) :
    ∀ fuel, scan_back g (fuel + g.cols) ⟨k, 0⟩ = scan_back g fuel ⟨k + 1, 0⟩ := by
  intro fuel
  have harith : fuel + g.cols = (fuel + (g.cols - 1)) + 1 := by omega
  rw [harith, scan_back_wrap g k _ (by omega),
    if_pos ⟨hemp _ (by omega), hk1⟩]
  exact scan_back_row g (k + 1) (by omega) (g.cols - 1) (by omega)
    (fun j hj => hemp j (by omega)) fuel

/-- The start of the scan behaves like crossing row 0: from the off-grid
start `(0, cols)` the scan reaches `(0, 0)` when row 0 is fully empty. -/
theorem scan_back_start (g : Grid α) (hc : 1 ≤ g.cols) (h0 : 0 < g.lines)
    (hemp : ∀ j, j < g.cols → g.cell_empty ⟨0, j⟩ = true) :
    ∀ fuel, scan_back g (fuel + g.cols) ⟨0, g.cols⟩ = scan_back g fuel ⟨0, 0⟩ := by
  intro fuel
  have harith : fuel + g.cols = (fuel + (g.cols - 1)) + 1 := by omega
  rw [harith, scan_back]
  have hprev : prev_point g.total_lines g.cols ⟨0, g.cols⟩ =
      some ⟨0, g.cols - 1⟩ := by
    unfold prev_point
    rw [if_neg (by simp; omega), if_neg (by simp; omega)]
  rw [hprev]
  dsimp only
  rw [if_pos ⟨hemp _ (by omega), h0⟩]
  exact scan_back_row g 0 h0 (g.cols - 1) (by omega)
    (fun j hj => hemp j (by omega)) fuel

/-- Stopping inside a row: if some cell strictly right of the current column
is occupied, the scan ends in this row. -/
theorem scan_back_stop_in_row (g : Grid α) (k : Nat) (hk : k < g.lines) :
    ∀ c, c ≤ g.cols →
    (∃ j, j < c ∧ g.cell_empty ⟨k, j⟩ = false) →
    ∀ fuel, c ≤ fuel → (scan_back g fuel ⟨k, c⟩).line = k := by
  intro c
  induction c with
  | zero => intro _ h _ _; omega
  | succ c ih =>
    intro hc hne fuel hfuel
    obtain ⟨fuel, rfl⟩ : ∃ f, fuel = f + 1 := ⟨fuel - 1, by omega⟩
    rw [scan_back]
    have hprev : prev_point g.total_lines g.cols ⟨k, c + 1⟩ = some ⟨k, c⟩ := by
      unfold prev_point
      rw [if_neg (by simp), if_neg (by simp)]
      rfl
    rw [hprev]
    dsimp only
    by_cases hcell : g.cell_empty ⟨k, c⟩ = true
    · rw [if_pos ⟨hcell, hk⟩]
      obtain ⟨j, hj, hjne⟩ := hne
      have hjc : j < c := by
        rcases (by omega : j = c ∨ j < c) with h | h
        · rw [h] at hjne
          rw [hcell] at hjne
          exact absurd hjne (by simp)
        · exact h
      exact ih (by omega) ⟨j, hjc, hjne⟩ fuel (by omega)
    · rw [if_neg (by intro hcon; exact hcell hcon.1)]

/-- Climbing `m + 1` fully empty visible rows from the scan start reaches
column 0 of row `m`. -/
theorem scan_back_climb (g : Grid α) (hc : 1 ≤ g.cols)
    (hlen : g.lines ≤ g.total_lines) :
    ∀ m, m < g.lines →
    (∀ i, i ≤ m → ∀ j, j < g.cols → g.cell_empty ⟨i, j⟩ = true) →
    ∀ fuel, scan_back g (fuel + (m + 1) * g.cols) ⟨0, g.cols⟩ =
      scan_back g fuel ⟨m, 0⟩ := by
  intro m
  induction m with
  | zero =>
    intro hm hemp fuel
    rw [show fuel + 1 * g.cols = fuel + g.cols from by ring]
    exact scan_back_start g hc hm (fun j hj => hemp 0 le_rfl j hj) fuel
  | succ m ih =>
    intro hm hemp fuel
    rw [show fuel + (m + 1 + 1) * g.cols = (fuel + g.cols) + (m + 1) * g.cols
        from by ring,
      ih (by omega) (fun i hi j hj => hemp i (by omega) j hj) (fuel + g.cols)]
    exact scan_back_full_row g m hc hm hlen
      (fun j hj => hemp (m + 1) le_rfl j hj) fuel

/-- The scan's final line when some viewport row has content: it is the
lowest such row (`m` here: everything below `m` is empty, row `m` is not). -/
theorem scan_stop_line_content (g : Grid α) (hc : 1 ≤ g.cols)
    (hlen : g.lines ≤ g.total_lines) (m : Nat) (hm : m < g.lines)
    (hempty : ∀ i, i < m → ∀ j, j < g.cols → g.cell_empty ⟨i, j⟩ = true)
    (hnonempty : ∃ j, j < g.cols ∧ g.cell_empty ⟨m, j⟩ = false) :
    (g.scan_stop).line = m := by
  unfold scan_stop
  obtain ⟨j0, hj0, hj0ne⟩ := hnonempty
  rcases Nat.eq_zero_or_pos m with rfl | hmpos
  · -- content in the bottom row: stop there directly
    apply scan_back_stop_in_row g 0 hm g.cols le_rfl ⟨j0, hj0, hj0ne⟩
    have h1 : g.lines ≤ g.raw.length := by
      unfold total_lines at hlen
      exact hlen
    nlinarith [Nat.one_le_iff_ne_zero.mpr (by omega : g.cols ≠ 0)]
  · -- climb the empty rows below `m`, then stop in row `m`
    have hfuel : g.raw.length * g.cols + g.cols + 1 =
        (g.raw.length * g.cols + g.cols + 1 - m * g.cols) + m * g.cols := by
      have : m * g.cols ≤ g.raw.length * g.cols :=
        Nat.mul_le_mul_right _ (by unfold total_lines at hlen; omega)
      omega
    rw [hfuel,
      show g.raw.length * g.cols + g.cols + 1 - m * g.cols + m * g.cols =
        (g.raw.length * g.cols + g.cols + 1 - m * g.cols) + ((m - 1) + 1) * g.cols
        from by rw [show m - 1 + 1 = m from by omega],
      scan_back_climb g hc hlen (m - 1) (by omega)
        (fun i hi j hj => hempty i (by omega) j hj)]
    set fuel := g.raw.length * g.cols + g.cols + 1 - m * g.cols with hfueldef
    have hfuelpos : 1 ≤ fuel ∧ g.cols ≤ fuel := by
      constructor <;>
        · rw [hfueldef]
          have : m * g.cols ≤ g.raw.length * g.cols :=
            Nat.mul_le_mul_right _ (by unfold total_lines at hlen; omega)
          omega
    obtain ⟨fuel2, hfe⟩ : ∃ f, fuel = f + 1 := ⟨fuel - 1, by omega⟩
    rw [hfe, scan_back_wrap g (m - 1) fuel2
      (by unfold total_lines at hlen ⊢; omega)]
    rw [show m - 1 + 1 = m from by omega]
    by_cases hcell : g.cell_empty ⟨m, g.cols - 1⟩ = true
    · rw [if_pos ⟨hcell, hm⟩]
      have hj0c : j0 < g.cols - 1 := by
        rcases (by omega : j0 = g.cols - 1 ∨ j0 < g.cols - 1) with h | h
        · rw [h] at hj0ne
          rw [hcell] at hj0ne
          exact absurd hj0ne (by simp)
        · exact h
      exact scan_back_stop_in_row g m hm (g.cols - 1) (by omega)
        ⟨j0, hj0c, hj0ne⟩ fuel2 (by omega)
    · rw [if_neg (by intro hcon; exact hcell hcon.1)]

/-- The scan's final line when the whole viewport is empty: the first history
row (`lines`) when history exists, else the viewport's top row
(`lines - 1`, where the backward iterator yields `None`). -/
theorem scan_stop_line_all_empty (g : Grid α) (hc : 1 ≤ g.cols)
    (hlen : g.lines ≤ g.total_lines) (hl1 : 1 ≤ g.lines)
    (hempty : ∀ i, i < g.lines → ∀ j, j < g.cols → g.cell_empty ⟨i, j⟩ = true) :
    (g.scan_stop).line =
      if g.lines < g.total_lines then g.lines else g.lines - 1 := by
  unfold scan_stop
  have hfuel : g.raw.length * g.cols + g.cols + 1 =
      (g.raw.length * g.cols + g.cols + 1 - g.lines * g.cols) + g.lines * g.cols := by
    have : g.lines * g.cols ≤ g.raw.length * g.cols :=
      Nat.mul_le_mul_right _ (by unfold total_lines at hlen; omega)
    omega
  rw [hfuel,
    show g.raw.length * g.cols + g.cols + 1 - g.lines * g.cols + g.lines * g.cols =
      (g.raw.length * g.cols + g.cols + 1 - g.lines * g.cols) +
        ((g.lines - 1) + 1) * g.cols
      from by rw [show g.lines - 1 + 1 = g.lines from by omega],
    scan_back_climb g hc hlen (g.lines - 1) (by omega)
      (fun i hi j hj => hempty i (by omega) j hj)]
  set fuel := g.raw.length * g.cols + g.cols + 1 - g.lines * g.cols with hfueldef
  have hfuelpos : 1 ≤ fuel := by
    rw [hfueldef]
    have : g.lines * g.cols ≤ g.raw.length * g.cols :=
      Nat.mul_le_mul_right _ (by unfold total_lines at hlen; omega)
    omega
  obtain ⟨fuel2, hfe⟩ : ∃ f, fuel = f + 1 := ⟨fuel - 1, by omega⟩
  rw [hfe]
  by_cases hhist : g.lines < g.total_lines
  · rw [if_pos hhist, scan_back_wrap g (g.lines - 1) fuel2 (by
      unfold total_lines at hlen hhist ⊢
      omega)]
    rw [show g.lines - 1 + 1 = g.lines from by omega,
      if_neg (by intro hcon; omega)]
  · rw [if_neg hhist, scan_back_top g (g.lines - 1) fuel2 (by
      unfold total_lines at hlen hhist ⊢
      omega)]

/-- `cell_empty` at a point of a present row is the cell's `is_empty`. -/
theorem cell_empty_eq {g : Grid α} {k j : Nat} {r : List α}
    (hk : g.raw[k]? = some r) (hj : j < r.length) :
    g.cell_empty ⟨k, j⟩ = GridCell.is_empty r[j] := by
  unfold cell_empty cell_at
  rw [hk]
  show (match r[j]? with
    | some x => GridCell.is_empty x
    | none => false) = _
  rw [List.getElem?_eq_getElem hj]

/-- A fully empty row has all its cells empty at the scan level. -/
theorem cell_empty_of_rowEmpty [DecidableEq α] {g : Grid α} {k j : Nat}
    {r : List α} (hk : g.raw[k]? = some r) (hemp : rowEmpty r)
    (hj : j < r.length) : g.cell_empty ⟨k, j⟩ = true := by
  rw [cell_empty_eq hk hj]
  exact hemp _ (r.getElem_mem hj)

/-- A row that is not fully empty has an occupied cell at the scan level. -/
theorem cell_nonempty_of_not_rowEmpty [DecidableEq α] {g : Grid α} {k : Nat}
    {r : List α} (hk : g.raw[k]? = some r) (hne : ¬ rowEmpty r) :
    ∃ j, j < r.length ∧ g.cell_empty ⟨k, j⟩ = false := by
  unfold rowEmpty at hne
  push_neg at hne
  obtain ⟨c, hc, hcne⟩ := hne
  obtain ⟨j, hj, rfl⟩ := List.mem_iff_getElem.mp hc
  exact ⟨j, hj, by rw [cell_empty_eq hk hj]; simpa using hcne⟩

end Grid

/-- The basic facts about `firstContentRow`: it is the first not-fully-empty
row at or after `k` within the next `rem` rows (or `k + rem`). -/
theorem firstContentRow_spec {α : Type} [GridCell α] [DecidableEq α]
    (g : Grid α) : ∀ (rem k : Nat),
    k ≤ firstContentRow g k rem ∧ firstContentRow g k rem ≤ k + rem ∧
    (∀ i, k ≤ i → i < firstContentRow g k rem →
      ∀ r, g.raw[i]? = some r → rowEmpty r) ∧
    (firstContentRow g k rem < k + rem →
      ¬ ∀ r, g.raw[firstContentRow g k rem]? = some r → rowEmpty r) := by
  intro rem
  induction rem with
  | zero =>
    intro k
    rw [firstContentRow]
    exact ⟨le_rfl, by omega, fun i h1 h2 => by omega, fun h => by omega⟩
  | succ rem ih =>
    intro k
    rw [firstContentRow]
    split
    · rename_i hemp
      obtain ⟨i1, i2, i3, i4⟩ := ih (k + 1)
      refine ⟨by omega, by omega, ?_, fun h => i4 (by omega)⟩
      intro i hi1 hi2
      rcases (by omega : i = k ∨ k + 1 ≤ i) with rfl | hi
      · exact hemp
      · exact i3 i hi hi2
    · rename_i hne
      exact ⟨le_rfl, by omega, fun i h1 h2 => by omega, fun _ => hne⟩

/-- The scroll amount computed by `clear_viewport`, characterized by the
spec-worded `emptyTrailingRows`: `screen_lines` minus the number of fully
empty trailing rows, except that a fully empty viewport gives 0 when history
exists and 1 when it does not. -/
theorem clear_positions_spec {α : Type} [GridCell α] [DecidableEq α]
    (g : Grid α) (hc : 1 ≤ g.cols) (hl1 : 1 ≤ g.lines)
    (hlen : g.lines ≤ g.raw.length) (hrows : ∀ r ∈ g.raw, r.length = g.cols) :
    g.clear_positions =
      if emptyTrailingRows g < g.lines then g.lines - emptyTrailingRows g
      else if g.lines < g.raw.length then 0 else 1 := by
  obtain ⟨s1, s2, s3, s4⟩ := firstContentRow_spec g g.lines 0
  have hmdef : firstContentRow g 0 g.lines = emptyTrailingRows g := rfl
  simp only [hmdef, Nat.zero_add] at s2 s3 s4
  have hrowlen : ∀ k, k < g.raw.length → ∃ r, g.raw[k]? = some r ∧
      r.length = g.cols := by
    intro k hk
    exact ⟨g.raw[k], List.getElem?_eq_getElem hk,
      hrows _ (g.raw.getElem_mem hk)⟩
  have hemptycell : ∀ i, i < emptyTrailingRows g → ∀ j, j < g.cols →
      g.cell_empty ⟨i, j⟩ = true := by
    intro i hi j hj
    have hilen : i < g.raw.length := by omega
    obtain ⟨r, hr, hrlen⟩ := hrowlen i hilen
    exact Grid.cell_empty_of_rowEmpty hr (s3 i (by omega) hi r hr)
      (by omega)
  unfold Grid.clear_positions
  by_cases hm : emptyTrailingRows g < g.lines
  · rw [if_pos hm]
    have hstop : (g.scan_stop).line = emptyTrailingRows g := by
      apply Grid.scan_stop_line_content g hc hlen (emptyTrailingRows g) hm
        hemptycell
      have hne := s4 (by omega)
      push_neg at hne
      obtain ⟨r, hr, hrne⟩ := hne
      obtain ⟨j, hj, hjcell⟩ := Grid.cell_nonempty_of_not_rowEmpty hr hrne
      obtain ⟨r2, hr2, hr2len⟩ := hrowlen (emptyTrailingRows g) (by omega)
      rw [hr2] at hr
      obtain rfl : r2 = r := Option.some.inj hr
      exact ⟨j, by omega, hjcell⟩
    rw [hstop]
  · rw [if_neg hm]
    have hstop : (g.scan_stop).line =
        if g.lines < g.total_lines then g.lines else g.lines - 1 := by
      apply Grid.scan_stop_line_all_empty g hc hlen hl1
      intro i hi j hj
      exact hemptycell i (by omega) j hj
    rw [hstop]
    unfold Grid.total_lines
    split
    · omega
    · omega

/-- The structure of a completed `clear_viewport`: display offset 0, the
whole viewport reset to the template row, and the storage grown by the scroll
amount (as far as the limit allows); the remaining grid fields are
untouched. -/
theorem clear_viewport_spec {α : Type} [GridCell α] {g g2 : Grid α}
    (hcall : g.clear_viewport = some g2) :
    g2.display_offset = 0 ∧
    (g.clear_positions ≤ g.lines →
      ∀ i, i < g.lines → g2.raw[i]? = some g.row_template) ∧
    g2.raw.length = g.raw.length +
      min g.clear_positions (g.max_scroll_limit - g.history_size) ∧
    g2.lines = g.lines ∧ g2.cols = g.cols ∧ g2.cursor = g.cursor ∧
    g2.max_scroll_limit = g.max_scroll_limit := by
  obtain ⟨hguard, g', hup, rfl⟩ := Grid.clear_viewport_eq_cases hcall
  obtain ⟨hle, hcases⟩ := Grid.scroll_up_eq_cases hup
  rcases hcases with ⟨hcond, hrs0, hok, rfl⟩ | ⟨hcond, hok, hgo⟩
  · exact absurd rfl hrs0
  · obtain ⟨hscr, hlim, hrs, hp0, hplen, hre2, hfix⟩ := hok
    subst hgo
    set gz : Grid α := { g with display_offset := 0 } with hgz
    have hzraw : gz.raw = g.raw := rfl
    have hzlines : gz.lines = g.lines := rfl
    have hzhist : gz.history_size = g.history_size := rfl
    have hzlimit : gz.max_scroll_limit = g.max_scroll_limit := rfl
    have hztmpl : gz.row_template = g.row_template := rfl
    have hscr2 : g.lines ≤ g.raw.length := hscr
    have hplen2 : g.clear_positions ≤
        g.raw.length + min g.clear_positions
          (g.max_scroll_limit - g.history_size) := hplen
    have hofz : (gz.scroll_up_go 0 g.lines g.clear_positions).display_offset = 0 := by
      rw [Grid.scroll_up_go_offset]
      rw [if_neg (by show ¬((0 : Nat) ≠ 0); simp)]
    refine ⟨hofz, ?_, ?_, ?_, ?_, ?_, ?_⟩
    · intro hPle i hi
      have hgoraw := Grid.scroll_up_go_raw gz 0 g.lines g.clear_positions
      rw [hzraw, hzlines, hzhist, hzlimit, hztmpl] at hgoraw
      by_cases hiP : i < g.clear_positions
      · rw [reset_asc_getElem?_out _ _ _ _ _ (by omega), hgoraw,
          show g.lines - g.lines = 0 from by omega]
        show (reset_asc g.row_template 0 g.clear_positions _)[i]? = _
        rw [reset_asc_getElem?_in _ _ _ _ _ (by omega) (by omega) (by
          rw [Storage.length_rotate_neg, length_fix_swap_top,
            Storage.length_grow]
          omega)]
      · rw [reset_asc_getElem?_in _ _ _ _ _ (by omega) (by omega) (by
          rw [Grid.scroll_up_go_raw_length]
          show i < g.raw.length + min g.clear_positions
            (g.max_scroll_limit - g.history_size)
          omega)]
    · rw [length_reset_asc, Grid.scroll_up_go_raw_length]
      rfl
    · rw [Grid.scroll_up_go_lines]
    · rw [Grid.scroll_up_go_cols]
    · rw [Grid.scroll_up_go_cursor]
    · rw [Grid.scroll_up_go_limit]

/-- Counterexample to claim C4: on a 2×1 grid whose both viewport cells are
occupied, there are 0 fully empty trailing rows, so the claim says
`clear_viewport` scrolls up by 0; the code scrolls up by
`screen_lines - 0 = 2` (pushing the two *content* rows into history, which is
the whole point of the operation). -/
theorem claim_C4_counterexample : ¬ claimC4 gridFullRows := by
  decide

/-- Claim C4 (amended): `clear_viewport()` scrolls the full screen region up
by `positions = screen_lines - r`, where `r` is the number of fully empty
trailing rows at the bottom of the viewport — pushing the non-empty top part
of the viewport into history (as far as `max_scroll_limit` allows) — except
that a fully empty viewport gives `positions = 0` when history exists and
`positions = 1` when it does not; it forces `display_offset` to 0 and leaves
the whole viewport reset to the cursor template. -/
theorem claim_C4_amended {α : Type} [GridCell α] [DecidableEq α]
    {g g2 : Grid α} (hinv : g.inv) (hl1 : 1 ≤ g.lines) (hc : 1 ≤ g.cols)
    (hrows : ∀ r ∈ g.raw, r.length = g.cols)
    (hcall : g.clear_viewport = some g2) :
    g.clear_positions =
      (if emptyTrailingRows g < g.lines then g.lines - emptyTrailingRows g
        else if g.lines < g.total_lines then 0 else 1) ∧
    g2.display_offset = 0 ∧
    (∀ i, i < g.lines → g2.raw[i]? = some g.row_template) ∧
    g2.total_lines = g.total_lines +
      min g.clear_positions (g.max_scroll_limit - g.history_size) := by
  obtain ⟨hlen, _, _⟩ := hinv
  obtain ⟨hoff, htmpl, hgrow, _, _, _, _⟩ := clear_viewport_spec hcall
  refine ⟨?_, hoff, ?_, hgrow⟩
  · exact clear_positions_spec g hc hl1 hlen hrows
  · apply htmpl
    unfold Grid.clear_positions
    exact Nat.sub_le _ _

/-- Witness for the amended C4: the 2×1 fully occupied grid is cleared by
scrolling up 2 lines; the resulting viewport is all template and the history
has grown by 2. -/
theorem claim_C4_amended_witness :
    (gridFullRows.inv ∧ 1 ≤ gridFullRows.lines ∧ 1 ≤ gridFullRows.cols ∧
      (∀ r ∈ gridFullRows.raw, r.length = gridFullRows.cols) ∧
      gridFullRows.clear_viewport = some gridC4w) ∧
    (gridFullRows.clear_positions =
      (if emptyTrailingRows gridFullRows < gridFullRows.lines
        then gridFullRows.lines - emptyTrailingRows gridFullRows
        else if gridFullRows.lines < gridFullRows.total_lines then 0 else 1) ∧
    gridC4w.display_offset = 0 ∧
    (∀ i, i < gridFullRows.lines →
      gridC4w.raw[i]? = some gridFullRows.row_template) ∧
    gridC4w.total_lines = gridFullRows.total_lines +
      min gridFullRows.clear_positions
        (gridFullRows.max_scroll_limit - gridFullRows.history_size)) :=
  ⟨⟨⟨by decide, by decide, by decide⟩, by decide, by decide, by decide,
      by decide⟩,
    claim_C4_amended ⟨by decide, by decide, by decide⟩ (by decide) (by decide)
      (by decide) (by decide)⟩

/-- Counterexample to claim C3: on the 4×1 no-scrollback grid, scrolling the
region `Line(1)..Line(3)` up by 1 and back down by 1 does not restore line 1:
its content was rotated out at the region's top, and with
`max_scroll_limit == 0` there is no history to bring it back — it comes back
as the template row. -/
theorem claim_C3_counterexample : ¬ claimC3 gridNoHist := by
  intro h
  have hres := h 1 3 1 gridC3up gridC3down (by decide) (by decide) 1
    (by decide) (by decide)
  have : gridC3down.raw[gridNoHist.lines - 1 - 1]? ≠
      gridNoHist.raw[gridNoHist.lines - 1 - 1]? := by decide
  exact this hres

/-- Claim C3 (amended): on a grid with `max_scroll_limit == 0` (storage
exactly the screen), `scroll_up(region, n)` followed by
`scroll_down(region, n)` with no intervening mutation restores every line of
the region below its top `min(n, |region|)` lines; those top lines end up as
the cursor-template row (their content was scrolled out at the top and, with
no history configured, lost). -/
theorem claim_C3_roundtrip {α : Type} [GridCell α] {g g1 g2 : Grid α}
    {rs re p : Nat} (hlim : g.max_scroll_limit = 0)
    (hlen : g.raw.length = g.lines) (hre : re ≤ g.lines)
    (hup : g.scroll_up rs re p = some g1)
    (hdown : g1.scroll_down rs re p = some g2) (l : Nat) (hrl : rs ≤ l)
    (hlre : l < re) :
    (l < rs + p → g2.raw[g.lines - 1 - l]? = some g.row_template) ∧
    (rs + p ≤ l → g2.raw[g.lines - 1 - l]? = g.raw[g.lines - 1 - l]?) := by
  obtain ⟨hlines1, hcols1, hlimit1, hcursor1⟩ := Grid.scroll_up_some_fields hup
  have hlim1 : g1.max_scroll_limit = 0 := by rw [hlimit1, hlim]
  have hlen1 : g1.raw.length = g1.lines := by
    rw [Grid.scroll_up_some_length_nohist hlim hup, hlines1, hlen]
  have htmpl : g1.row_template = g.row_template := by
    unfold Grid.row_template
    rw [hcols1, hcursor1]
  have hre1 : re ≤ g1.lines := by rw [hlines1]; exact hre
  have hdchar := Grid.scroll_down_inside_nohist hlim1 hlen1 hre1 hdown l hrl hlre
  rw [hlines1, htmpl] at hdchar
  refine ⟨hdchar.1, fun h => ?_⟩
  rw [hdchar.2 h]
  have huchar := Grid.scroll_up_inside_nohist hlim hlen hre hup (l - p)
    (by omega) (by omega)
  have heq := huchar.1 (by omega)
  rw [show l - p + p = l from by omega] at heq
  exact heq

/-- Witness for the amended C3: on the 4×1 no-scrollback grid with region
`Line(1)..Line(3)` and one position, line 2 is restored by the round trip
(and the calls complete). -/
theorem claim_C3_roundtrip_witness :
    (gridNoHist.max_scroll_limit = 0 ∧
      gridNoHist.raw.length = gridNoHist.lines ∧ 3 ≤ gridNoHist.lines ∧
      gridNoHist.scroll_up 1 3 1 = some gridC3up ∧
      gridC3up.scroll_down 1 3 1 = some gridC3down ∧
      (1 : Nat) ≤ 2 ∧ (2 : Nat) < 3) ∧
    ((2 : Nat) < 1 + 1 →
      gridC3down.raw[gridNoHist.lines - 1 - 2]? = some gridNoHist.row_template) ∧
    ((1 + 1 : Nat) ≤ 2 →
      gridC3down.raw[gridNoHist.lines - 1 - 2]? =
        gridNoHist.raw[gridNoHist.lines - 1 - 2]?) :=
  ⟨⟨by decide, by decide, by decide, by decide, by decide, by decide, by decide⟩,
    @claim_C3_roundtrip Bool _ gridNoHist gridC3up gridC3down 1 3 1
      (by decide) (by decide) (by decide) (by decide) (by decide) 2
      (by decide) (by decide)⟩

/-- Claim C10: grid equality (`PartialEq`) compares only the row storage, the
column count, the screen line count and the display offset, so a grid stays
equal to itself after its cursor, saved cursor or scroll limit change. -/
theorem claim_C10_partial_eq {α : Type} (g1 g2 : Grid α) (c s : Cursor α)
    (m : Nat) :
    (Grid.eq_impl g1 g2 ↔
      g1.raw = g2.raw ∧ g1.cols = g2.cols ∧ g1.lines = g2.lines ∧
        g1.display_offset = g2.display_offset) ∧
    Grid.eq_impl g1 { g1 with cursor := c, saved_cursor := s, max_scroll_limit := m } :=
  ⟨Iff.rfl, rfl, rfl, rfl, rfl⟩

/-- Counterexample to claim C8: `scroll_up` does not reject every
out-of-bounds region by a fatal boundary check — the empty region
`Line(4)..Line(4)` lies beyond the 3 screen lines of the scenario grid, yet
the call completes (it returns instead of panicking, taking the early-reset
branch with an empty loop). -/
theorem claim_C8_counterexample : ¬ claimC8scroll gridScenario := by
  intro h
  have h1 := (h 4 4 0 (by decide)).1
  have h2 : (gridScenario.scroll_up 4 4 0).isSome = true := by decide
  rw [h1] at h2
  exact absurd h2 (by decide)

/-- Claim C8 (amended): `region` and `region_mut` reject every out-of-bounds
region argument (`start > end`, or either endpoint beyond `screen_lines`) by
a fatal precondition check at the call boundary, modelled as `none`;
`scroll_up` and `scroll_down` perform no such boundary check (see the
counterexample: an empty out-of-bounds region is accepted as a no-op). -/
theorem claim_C8_region_asserts {α : Type} (g : Grid α) (rs re : Nat)
    (hoob : regionOOB g rs re) :
    g.region rs re = none ∧ g.region_mut rs re = none := by
  unfold Grid.region Grid.region_mut Grid.screen_lines
  unfold regionOOB at hoob
  constructor <;> · rw [if_neg]; omega

/-- Witness for the amended C8: the region `Line(4)..Line(4)` is
out-of-bounds for the 3-line scenario grid and both accessors reject it. -/
theorem claim_C8_region_asserts_witness :
    regionOOB gridScenario 4 4 ∧
      gridScenario.region 4 4 = none ∧ gridScenario.region_mut 4 4 = none :=
  ⟨by decide, claim_C8_region_asserts gridScenario 4 4 (by decide)⟩

/-- Counterexample to claim C5: the absolute point `(5, 0)` lies above the
visible window of the scenario grid (window rows `[0, 3)`), and the claim
demands the bottom-right visible cell there; the code returns the top-left
cell `(0, 0)` instead. -/
theorem claim_C5_counterexample : ¬ claimC5 gridScenario ⟨5, 0⟩ := by
  decide

/-- Claim C5 (amended): `clamp_buffer_to_visible` clamps a point *below* the
visible window (absolute row `< display_offset`) to the bottom-right visible
cell, a point *above* the window (absolute row `≥ display_offset +
screen_lines`) to the top-left cell `(Line(0), Column(0))`, and otherwise
converts via the inverse of `visible_to_buffer`: the result is a viewport
point with the column unchanged that `visible_to_buffer` maps back to the
argument. -/
theorem claim_C5_amended {α : Type} (g : Grid α) (pt : Point) :
    (pt.line < g.display_offset →
      g.clamp_buffer_to_visible pt = ⟨g.lines - 1, g.cols - 1⟩) ∧
    (g.display_offset + g.lines ≤ pt.line →
      g.clamp_buffer_to_visible pt = ⟨0, 0⟩) ∧
    (g.display_offset ≤ pt.line → pt.line < g.display_offset + g.lines →
      g.visible_to_buffer (g.clamp_buffer_to_visible pt) = ⟨pt.line, pt.col⟩ ∧
      (g.clamp_buffer_to_visible pt).line < g.lines ∧
      (g.clamp_buffer_to_visible pt).col = pt.col) := by
  unfold Grid.clamp_buffer_to_visible Grid.visible_to_buffer
  refine ⟨fun h => by rw [if_pos h], fun h => ?_, fun h1 h2 => ?_⟩
  · rw [if_neg (by omega), if_pos (by omega)]
  · rw [if_neg (by omega), if_neg (by omega)]
    refine ⟨?_, by dsimp only; omega, rfl⟩
    dsimp only
    congr 1
    omega

/-- Witness for the amended C5: all three cases of the clamp evaluated on a
scrolled-back 3×2 grid. -/
theorem claim_C5_amended_witness :
    ((0 : Nat) < gridC5w.display_offset ∧
      gridC5w.clamp_buffer_to_visible ⟨0, 0⟩ = ⟨gridC5w.lines - 1, gridC5w.cols - 1⟩) ∧
    (gridC5w.display_offset + gridC5w.lines ≤ 9 ∧
      gridC5w.clamp_buffer_to_visible ⟨9, 1⟩ = ⟨0, 0⟩) ∧
    (gridC5w.display_offset ≤ 2 ∧ (2 : Nat) < gridC5w.display_offset + gridC5w.lines ∧
      gridC5w.visible_to_buffer (gridC5w.clamp_buffer_to_visible ⟨2, 1⟩) = ⟨2, 1⟩) :=
  ⟨⟨by decide, (claim_C5_amended gridC5w ⟨0, 0⟩).1 (by decide)⟩,
    ⟨by decide, (claim_C5_amended gridC5w ⟨9, 1⟩).2.1 (by decide)⟩,
    ⟨by decide, by decide,
      ((claim_C5_amended gridC5w ⟨2, 1⟩).2.2 (by decide) (by decide)).1⟩⟩

/-- Counterexample to claim C6: on a 2-line grid pinned to the bottom, the
inclusive range from absolute `(0,0)` to absolute `(2,0)` spans rows 0..2 and
overlaps the viewport (rows 0 and 1), so the claim demands a `Some` result;
the code returns `None` because it tests the `end` endpoint against the top
boundary (it assumes ranges are given top-endpoint first). -/
theorem claim_C6_counterexample :
    ¬ claimC6 gridFullRows (⟨0, 0⟩, ⟨2, 0⟩) := by
  intro h
  have h1 : entirelyOutside gridFullRows (⟨0, 0⟩, ⟨2, 0⟩) :=
    h.1.mp (by decide)
  have h2 := h1 0 (by simp [rangeRows])
  simp [gridFullRows, Grid.new] at h2

/-- Claim C6 (amended): for an inclusive range of absolute points given with
its `start` at or above its `end` (`start.line ≥ end.line`, the orientation
the buffer's point ordering produces), `clamp_buffer_range_to_visible`
returns `None` iff the whole absolute-row range lies entirely outside the
current viewport window, and otherwise returns the range with both endpoints
clamped independently by `clamp_buffer_to_visible`, so a straddling range
yields the clamped sub-range. -/
theorem claim_C6_amended {α : Type} (g : Grid α) (r : Point × Point)
    (hord : r.2.line ≤ r.1.line) (hlines : 1 ≤ g.lines) : claimC6 g r := by
  obtain ⟨s, e⟩ := r
  unfold claimC6 Grid.clamp_buffer_range_to_visible entirelyOutside rangeRows
  dsimp only at hord ⊢
  have hminmax : s.line ⊓ e.line = e.line ∧ s.line ⊔ e.line = s.line :=
    ⟨inf_eq_right.mpr hord, sup_eq_left.mpr hord⟩
  constructor
  · constructor
    · intro hnone
      intro x hx
      rw [Set.mem_Icc, hminmax.1, hminmax.2] at hx
      by_cases hc : e.line > g.display_offset + g.lines - 1 ∨
          s.line < g.display_offset
      · omega
      · rw [if_neg hc] at hnone
        exact absurd hnone (by simp)
    · intro hout
      have hcond : e.line > g.display_offset + g.lines - 1 ∨
          s.line < g.display_offset := by
        by_contra hc
        push_neg at hc
        have hmem := hout (max e.line g.display_offset)
          (by rw [Set.mem_Icc, hminmax.1, hminmax.2]
              exact ⟨le_max_left _ _, max_le hord (by omega)⟩)
        omega
      rw [if_pos hcond]
  · intro hout
    have hcond : ¬(e.line > g.display_offset + g.lines - 1 ∨
        s.line < g.display_offset) := by
      intro hc
      apply hout
      intro x hx
      rw [Set.mem_Icc, hminmax.1, hminmax.2] at hx
      omega
    rw [if_neg hcond]

/-- Witness for the amended C6: a straddling range on the scrolled-back grid
yields the clamped sub-range, and a range entirely above the window yields
`None`. -/
theorem claim_C6_amended_witness :
    ((2 : Nat) ≤ 9 ∧ (1 : Nat) ≤ gridC5w.lines ∧
      (gridC5w.clamp_buffer_range_to_visible (⟨9, 0⟩, ⟨2, 0⟩) = none ↔
        entirelyOutside gridC5w (⟨9, 0⟩, ⟨2, 0⟩))) ∧
    gridC5w.clamp_buffer_range_to_visible (⟨9, 0⟩, ⟨2, 0⟩) =
      some (gridC5w.clamp_buffer_to_visible ⟨9, 0⟩,
        gridC5w.clamp_buffer_to_visible ⟨2, 0⟩) :=
  ⟨⟨by decide, by decide,
      (claim_C6_amended gridC5w (⟨9, 0⟩, ⟨2, 0⟩) (by decide) (by decide)).1⟩,
    by decide⟩

/-- Counterexample to claim C7: in a 2×2 buffer, the topmost-leftmost cell is
absolute `(1, 0)`; the claim says `next()` returns `None` there, but the code
steps to `(1, 1)` — `next()` terminates at the bottom-right corner instead. -/
theorem claim_C7_counterexample : ¬ claimC7 2 2 ⟨1, 0⟩ := by
  decide

/-- Claim C7 (amended): the absolute bidirectional iterator walks row-major
over the whole buffer, wrapping between column and row boundaries in both
directions, and its terminal cases are: `next()` returns `None` exactly at
the buffer's *bottommost-rightmost* cell `(0, cols - 1)`, and `prev()`
returns `None` exactly at the buffer's *topmost-leftmost* cell
`(total_lines - 1, 0)`, the boundary being `total_lines` (the whole buffer
including history), not just the viewport. -/
theorem claim_C7_amended (total cols : Nat) (pt : Point) (hc : 1 ≤ cols)
    (hline : pt.line < total) (hcol : pt.col < cols) :
    (Grid.next_point cols pt = none ↔ pt = ⟨0, cols - 1⟩) ∧
    (Grid.prev_point total cols pt = none ↔ pt = ⟨total - 1, 0⟩) ∧
    (pt.col + 1 < cols →
      Grid.next_point cols pt = some ⟨pt.line, pt.col + 1⟩) ∧
    (pt.col = cols - 1 → pt.line ≠ 0 →
      Grid.next_point cols pt = some ⟨pt.line - 1, 0⟩) ∧
    (0 < pt.col → Grid.prev_point total cols pt = some ⟨pt.line, pt.col - 1⟩) ∧
    (pt.col = 0 → pt.line ≠ total - 1 →
      Grid.prev_point total cols pt = some ⟨pt.line + 1, cols - 1⟩) := by
  obtain ⟨pl, pc⟩ := pt
  unfold Grid.next_point Grid.prev_point
  simp only [Point.mk.injEq]
  refine ⟨?_, ?_, ?_, ?_, ?_, ?_⟩
  · constructor
    · intro h
      by_cases hc1 : pl = 0 ∧ pc = cols - 1
      · exact ⟨hc1.1, hc1.2⟩
      · rw [if_neg hc1] at h
        split at h <;> simp at h
    · intro ⟨h1, h2⟩
      rw [if_pos ⟨h1, h2⟩]
  · constructor
    · intro h
      by_cases hc1 : pc = 0 ∧ pl = total - 1
      · exact ⟨hc1.2, hc1.1⟩
      · rw [if_neg hc1] at h
        split at h <;> simp at h
    · intro ⟨h1, h2⟩
      rw [if_pos ⟨h2, h1⟩]
  · intro h
    rw [if_neg (by omega), if_neg (by omega)]
  · intro h1 h2
    rw [if_neg (by omega), if_pos h1]
  · intro h
    rw [if_neg (by omega), if_neg (by omega)]
  · intro h1 h2
    rw [if_neg (by omega), if_pos h1]

/-- Witness for the amended C7: terminal and wrapping cases evaluated in a
3-row (1 history line), 2-column buffer. -/
theorem claim_C7_amended_witness :
    ((1 : Nat) ≤ 2 ∧ (1 : Nat) < 3 ∧ (1 : Nat) < 2 ∧
      (Grid.next_point 2 ⟨1, 1⟩ = none ↔ (⟨1, 1⟩ : Point) = ⟨0, 1⟩) ∧
      (Grid.prev_point 3 2 ⟨1, 1⟩ = none ↔ (⟨1, 1⟩ : Point) = ⟨2, 0⟩)) ∧
    Grid.next_point 2 ⟨0, 1⟩ = none ∧
    Grid.prev_point 3 2 ⟨2, 0⟩ = none ∧
    Grid.next_point 2 ⟨1, 1⟩ = some ⟨0, 0⟩ ∧
    Grid.prev_point 3 2 ⟨1, 0⟩ = some ⟨2, 1⟩ :=
  ⟨⟨by decide, by decide, by decide,
      (claim_C7_amended 3 2 ⟨1, 1⟩ (by decide) (by decide) (by decide)).1,
      (claim_C7_amended 3 2 ⟨1, 1⟩ (by decide) (by decide) (by decide)).2.1⟩,
    by decide, by decide, by decide, by decide⟩

/-! ## Idempotence of `clear_viewport` (claim C9)

`clear_viewport` leaves the viewport filled with the cursor-template row.
When that template is an *empty* cell, the second call scans the whole
viewport as empty, scrolls by 0 (history present) or 1 (no history, which
the first call's growth only leaves possible when `max_scroll_limit = 0`),
and every phase of that second scroll is the identity on the storage.  When
the template is *not* empty, the second call pushes another screenful into
history, so the operation is not idempotent in general. -/

/-- Setting an index to the element it already holds leaves the list
unchanged. -/
theorem list_set_id {ρ : Type} (l : List ρ) (i : Nat) (a : ρ)
    (h : l[i]? = some a) : l.set i a = l := by
  apply List.ext_getElem?
  intro k
  by_cases hk : k = i
  · subst hk
    rw [List.getElem?_set_eq_of_lt a (by
      have := List.getElem?_eq_some.mp h
      exact this.1), h]
  · rw [List.getElem?_set_ne (by omega)]

/-- An element read through `getElem?` is a member of the list. -/
theorem list_mem_of_some {ρ : Type} {l : List ρ} {i : Nat} {a : ρ}
    (h : l[i]? = some a) : a ∈ l := by
  obtain ⟨hlt, heq⟩ := List.getElem?_eq_some.mp h
  exact heq ▸ List.getElem_mem hlt

/-- Resetting rows that already hold the template row is the identity. -/
theorem reset_asc_id {ρ : Type} (t : ρ) :
    ∀ (a c : Nat) (l : List ρ),
      (∀ k, a ≤ k → k < a + c → l[k]? = some t) → reset_asc t a c l = l := by
  intro a c
  induction c generalizing a with
  | zero => intro l _; rfl
  | succ c ih =>
      intro l h
      show reset_asc t (a + 1) c (l.set a t) = l
      rw [list_set_id l a t (h a le_rfl (by omega))]
      exact ih (a + 1) l (fun k hk1 hk2 => h k (by omega) (by omega))

/-- `Storage.swap` only permutes: its result's members are the input's. -/
theorem mem_of_storage_swap {ρ : Type} {r : ρ} {l : List ρ} {i j : Nat}
    (h : r ∈ Storage.swap l i j) : r ∈ l := by
  unfold Storage.swap at h
  cases hi : l[i]? with
  | none =>
      rw [hi] at h
      exact h
  | some a =>
      cases hj : l[j]? with
      | none =>
          rw [hi, hj] at h
          exact h
      | some b =>
          rw [hi, hj] at h
          rcases List.mem_or_eq_of_mem_set h with h1 | rfl
          · rcases List.mem_or_eq_of_mem_set h1 with h2 | rfl
            · exact h2
            · exact list_mem_of_some hj
          · exact list_mem_of_some hi

/-- The fixed-top swap loop only permutes rows. -/
theorem mem_of_fix_swap_top {ρ : Type} (screen p : Nat) :
    ∀ (s : Nat) (l : List ρ) (r : ρ), r ∈ fix_swap_top screen p s l → r ∈ l := by
  intro s
  induction s with
  | zero => intro l r h; exact h
  | succ s ih =>
      intro l r h
      exact mem_of_storage_swap (ih _ r h)

/-- The ascending swap loop only permutes rows. -/
theorem mem_of_swap_ascend {ρ : Type} (p : Nat) :
    ∀ (n a : Nat) (l : List ρ) (r : ρ), r ∈ swap_ascend p a n l → r ∈ l := by
  intro n
  induction n with
  | zero => intro a l r h; exact h
  | succ n ih =>
      intro a l r h
      exact mem_of_storage_swap (ih (a + 1) _ r h)

/-- Every row of a reset run's output is an input row or the template. -/
theorem mem_of_reset_asc {ρ : Type} (t : ρ) :
    ∀ (c a : Nat) (l : List ρ) (r : ρ),
      r ∈ reset_asc t a c l → r ∈ l ∨ r = t := by
  intro c
  induction c with
  | zero => intro a l r h; exact Or.inl h
  | succ c ih =>
      intro a l r h
      rcases ih (a + 1) _ r h with h1 | h1
      · rcases List.mem_or_eq_of_mem_set h1 with h2 | h2
        · exact Or.inl h2
        · exact Or.inr h2
      · exact Or.inr h1

/-- Every row of a grown buffer is an original row or a fresh default row. -/
theorem mem_of_grow {α : Type} [GridCell α] {r : List α} {l : List (List α)}
    {n cols : Nat} (h : r ∈ Storage.grow l n cols) :
    r ∈ l ∨ r = List.replicate cols GridCell.dflt := by
  unfold Storage.grow at h
  rcases List.mem_append.mp h with h1 | h1
  · exact Or.inl h1
  · exact Or.inr (List.eq_of_mem_replicate h1)

/-- Rotation only permutes rows. -/
theorem mem_of_rotate_neg {ρ : Type} {r : ρ} {l : List ρ} {p : Nat}
    (h : r ∈ Storage.rotate_neg l p) : r ∈ l := by
  unfold Storage.rotate_neg at h
  exact List.mem_rotate.mp h

namespace Grid

variable {α : Type}

theorem ite_offset_saved (g : Grid α) (c : Prop) [Decidable c] (x : Nat) :
    (if c then { g with display_offset := x } else g).saved_cursor =
      g.saved_cursor := by
  split <;> rfl

theorem increase_scroll_limit_saved [GridCell α] (g : Grid α) (p : Nat) :
    (g.increase_scroll_limit p).saved_cursor = g.saved_cursor := by
  unfold increase_scroll_limit; dsimp only; split <;> rfl

theorem scroll_up_go_saved [GridCell α] (g : Grid α) (rs re p : Nat) :
    (g.scroll_up_go rs re p).saved_cursor = g.saved_cursor := by
  unfold scroll_up_go
  dsimp only
  rw [increase_scroll_limit_saved, ite_offset_saved]

/-- Two grids with equal fields are equal. -/
theorem ext_fields {a b : Grid α} (h1 : a.cursor = b.cursor)
    (h2 : a.saved_cursor = b.saved_cursor) (h3 : a.raw = b.raw)
    (h4 : a.cols = b.cols) (h5 : a.lines = b.lines)
    (h6 : a.display_offset = b.display_offset)
    (h7 : a.max_scroll_limit = b.max_scroll_limit) : a = b := by
  cases a
  cases b
  congr 1

/-- Forcing the display offset to its current value 0 is the identity. -/
theorem set_offset_self (g : Grid α) (h : g.display_offset = 0) :
    ({ g with display_offset := 0 } : Grid α) = g := by
  obtain ⟨c1, s1, r1, co1, l1, d1, m1⟩ := g
  obtain rfl : d1 = 0 := h
  rfl

/-- Every row of a cleared grid is an original row, the template row, or a
fresh default row: `clear_viewport` only permutes, grows and stamps. -/
theorem clear_viewport_raw_mem [GridCell α] {g g2 : Grid α}
    (hcall : g.clear_viewport = some g2) :
    ∀ r ∈ g2.raw,
      r ∈ g.raw ∨ r = g.row_template ∨
        r = List.replicate g.cols GridCell.dflt := by
  obtain ⟨hguard, g', hup, rfl⟩ := clear_viewport_eq_cases hcall
  intro r hr
  rcases mem_of_reset_asc _ _ _ _ _ hr with hr1 | hr1
  · obtain ⟨hle, hcases⟩ := scroll_up_eq_cases hup
    rcases hcases with ⟨hcond, hrs0, hok, rfl⟩ | ⟨hcond, hok, hgo⟩
    · exact absurd rfl hrs0
    · subst hgo
      rw [scroll_up_go_raw] at hr1
      rcases mem_of_reset_asc _ _ _ _ _ (mem_of_swap_ascend _ _ _ _ _ hr1)
        with h2 | h2
      · rcases mem_of_grow
          (mem_of_fix_swap_top _ _ _ _ _ (mem_of_rotate_neg h2)) with h3 | h3
        · exact Or.inl h3
        · exact Or.inr (Or.inr h3)
      · exact Or.inr (Or.inl h2)
  · exact Or.inr (Or.inl hr1)

/-- `clear_viewport` preserves a uniform row width. -/
theorem clear_viewport_rows_len [GridCell α] {g g2 : Grid α}
    (hrows : ∀ r ∈ g.raw, r.length = g.cols)
    (hcall : g.clear_viewport = some g2) :
    ∀ r ∈ g2.raw, r.length = g.cols := by
  intro r hr
  rcases clear_viewport_raw_mem hcall r hr with h | h | h
  · exact hrows r h
  · rw [h]
    simp [row_template]
  · rw [h]
    simp

/-- When the buffer is exactly the screen, the backward scan never leaves
the viewport: the iterator's `prev` stops at the buffer top instead of
wrapping into (nonexistent) history. -/
theorem scan_back_line_lt [GridCell α] (g : Grid α)
    (heq : g.total_lines = g.lines) :
    ∀ (fuel : Nat) (cur : Point), cur.line < g.lines →
      (scan_back g fuel cur).line < g.lines := by
  intro fuel
  induction fuel with
  | zero => intro cur h; exact h
  | succ f ih =>
      intro cur h
      rw [scan_back]
      cases hp : prev_point g.total_lines g.cols cur with
      | none => exact h
      | some c =>
          have hcl : c.line < g.lines := by
            unfold prev_point at hp
            split at hp
            · simp at hp
            · rename_i hcond
              split at hp
              · rename_i hc0
                obtain rfl : (⟨cur.line + 1, g.cols - 1⟩ : Point) = c :=
                  Option.some.inj hp
                dsimp only
                have hne : cur.line ≠ g.total_lines - 1 :=
                  fun hh => hcond ⟨hc0, hh⟩
                unfold total_lines at heq hne
                omega
              · obtain rfl : (⟨cur.line, cur.col - 1⟩ : Point) = c :=
                  Option.some.inj hp
                exact h
          dsimp only
          split
          · exact ih c hcl
          · exact hcl

/-- With no history, the scan of `clear_viewport` always ends strictly
inside the viewport, so `positions ≥ 1`. -/
theorem scan_stop_line_lt [GridCell α] (g : Grid α)
    (heq : g.total_lines = g.lines) (hl1 : 1 ≤ g.lines) :
    (g.scan_stop).line < g.lines := by
  unfold scan_stop
  exact scan_back_line_lt g heq _ ⟨0, g.cols⟩ hl1

/-- The core of C9: on a grid whose display offset is already 0 and whose
viewport rows all hold the template row, a `clear_viewport` whose growth
allowance is exhausted and whose rotation is the identity returns the grid
unchanged. -/
theorem clear_viewport_second_fixpoint [GridCell α] {g1 : Grid α}
    (hinv1 : g1.inv) (hl1 : 1 ≤ g1.lines) (hc1 : 1 ≤ g1.cols)
    (hoff1 : g1.display_offset = 0)
    (hrows1 : ∀ r ∈ g1.raw, g1.cols ≤ r.length)
    (htmpl1 : ∀ i, i < g1.lines → g1.raw[i]? = some g1.row_template)
    (hcount0 : min g1.clear_positions
      (g1.max_scroll_limit - g1.history_size) = 0)
    (hrotid : Storage.rotate_neg g1.raw g1.clear_positions = g1.raw) :
    g1.clear_viewport = some g1 := by
  obtain ⟨hlen1, hoffle1, hhle1⟩ := hinv1
  have hh : g1.history_size = g1.raw.length - g1.lines := rfl
  have hPle2 : g1.clear_positions ≤ g1.lines := by
    unfold clear_positions
    exact Nat.sub_le _ _
  have hok : g1.scroll_up_ok 0 g1.lines g1.clear_positions := by
    unfold scroll_up_ok grown_len
    refine ⟨hlen1, by omega, Nat.zero_le _, Or.inl rfl, by omega, le_rfl,
      Or.inl (by omega)⟩
  have hup2 : g1.scroll_up 0 g1.lines g1.clear_positions =
      some (g1.scroll_up_go 0 g1.lines g1.clear_positions) := by
    unfold scroll_up
    rw [if_neg (by omega), if_neg (by intro hcon; exact hcon.2 rfl),
      if_pos hok]
  have hgoeq : g1.scroll_up_go 0 g1.lines g1.clear_positions = g1 := by
    apply ext_fields
    · rw [scroll_up_go_cursor]
    · rw [scroll_up_go_saved]
    · rw [scroll_up_go_raw, hcount0]
      rw [show Storage.grow g1.raw 0 g1.cols = g1.raw from by
        unfold Storage.grow
        simp]
      rw [show fix_swap_top g1.lines g1.clear_positions 0 g1.raw = g1.raw
        from rfl]
      rw [hrotid]
      rw [reset_asc_id g1.row_template 0 g1.clear_positions g1.raw
        (fun k hk1 hk2 => htmpl1 k (by omega))]
      rw [Nat.sub_self]
      rfl
    · rw [scroll_up_go_cols]
    · rw [scroll_up_go_lines]
    · rw [scroll_up_go_offset, if_neg (by rw [hoff1]; exact fun hcon => hcon rfl)]
    · rw [scroll_up_go_limit]
  have hguard : 1 ≤ g1.cols ∧
      g1.raw.all (fun r => g1.cols ≤ r.length) = true :=
    ⟨hc1, List.all_eq_true.mpr (fun r hr => decide_eq_true (hrows1 r hr))⟩
  unfold clear_viewport
  rw [if_pos hguard]
  dsimp only
  rw [set_offset_self g1 hoff1, hup2, hgoeq]
  show some ({ g1 with raw := (reset_asc g1.row_template g1.clear_positions
      (g1.lines - g1.clear_positions) g1.raw) } : Grid α) = some g1
  rw [reset_asc_id g1.row_template g1.clear_positions
    (g1.lines - g1.clear_positions) g1.raw
    (fun k hk1 hk2 => htmpl1 k (by omega))]

end Grid

/-- Counterexample to claim C9: on the 1×1 `InkCell` grid, whose cursor
template is *not* an empty cell, the first `clear_viewport` leaves a
non-empty viewport, so the second call scans a non-empty row, scrolls by 1
again and grows the history — the state changes between the calls. -/
theorem claim_C9_counterexample : ¬ claimC9 gridInk := by
  intro h
  have h1 := h gridInkC9 (by decide)
  have h2 : gridInkC9.clear_viewport ≠ some gridInkC9 := by decide
  exact h2 h1

/-- Claim C9 (amended): on a well-formed grid whose cursor template is an
*empty* cell (as the default cell is), `clear_viewport` is idempotent:
after one completed call, a second call completes and returns the state
unchanged.  (With a non-empty template the second call scrolls another
screenful into history, see the counterexample.) -/
theorem claim_C9_amended {α : Type} [GridCell α] {g g1 : Grid α}
    (hinv : g.inv) (hl1 : 1 ≤ g.lines) (hc : 1 ≤ g.cols)
    (hrows : ∀ r ∈ g.raw, r.length = g.cols)
    (hempty : GridCell.is_empty g.cursor.template = true)
    (hcall : g.clear_viewport = some g1) :
    g1.clear_viewport = some g1 := by
  obtain ⟨hoff1, htmpl0, hgrow1, hlines1, hcols1, hcursor1, hlimit1⟩ :=
    clear_viewport_spec hcall
  have hinv1 : g1.inv := Grid.clear_viewport_some_inv hcall hinv
  obtain ⟨hlen, hoffle, hhle⟩ := hinv
  have hlen1 : g1.lines ≤ g1.raw.length := hinv1.1
  have hl1b : 1 ≤ g1.lines := by omega
  have hc1 : 1 ≤ g1.cols := by omega
  have hrt : g1.row_template = g.row_template := by
    unfold Grid.row_template
    rw [hcols1, hcursor1]
  have hPle : g.clear_positions ≤ g.lines := by
    unfold Grid.clear_positions
    exact Nat.sub_le _ _
  have htmpl1 : ∀ i, i < g1.lines → g1.raw[i]? = some g1.row_template := by
    intro i hi
    rw [hrt, htmpl0 hPle i (by omega)]
  have hrows1g : ∀ r ∈ g1.raw, r.length = g.cols :=
    Grid.clear_viewport_rows_len hrows hcall
  have hrows1 : ∀ r ∈ g1.raw, g1.cols ≤ r.length := by
    intro r hr
    rw [hcols1, hrows1g r hr]
  have hempty1 : ∀ i, i < g1.lines → ∀ j, j < g1.cols →
      g1.cell_empty ⟨i, j⟩ = true := by
    intro i hi j hj
    have hjlen : j < (g1.row_template).length := by
      unfold Grid.row_template
      rw [List.length_replicate]
      exact hj
    rw [Grid.cell_empty_eq (htmpl1 i hi) hjlen]
    simp only [Grid.row_template, List.getElem_replicate, hcursor1]
    exact hempty
  have hstop1 := Grid.scan_stop_line_all_empty g1 hc1 hlen1 hl1b hempty1
  by_cases hhist1 : g1.lines < g1.raw.length
  · have hP2 : g1.clear_positions = 0 := by
      unfold Grid.clear_positions
      rw [hstop1]
      unfold Grid.total_lines
      rw [if_pos hhist1]
      omega
    apply Grid.clear_viewport_second_fixpoint hinv1 hl1b hc1 hoff1 hrows1 htmpl1
    · rw [hP2]
      omega
    · rw [hP2]
      unfold Storage.rotate_neg
      rw [Nat.zero_mod, Nat.sub_zero, List.rotate_length]
  · have hB : g1.raw.length = g1.lines := by omega
    have hh : g.history_size = g.raw.length - g.lines := rfl
    have hglen : g.raw.length = g.lines ∧
        min g.clear_positions (g.max_scroll_limit - g.history_size) = 0 := by
      constructor <;> omega
    have htotg : g.total_lines = g.lines := hglen.1
    have hP1pos : 1 ≤ g.clear_positions := by
      have hlt := Grid.scan_stop_line_lt g htotg hl1
      unfold Grid.clear_positions
      omega
    have hlim0 : g.max_scroll_limit = 0 := by
      have hmin := hglen.2
      omega
    apply Grid.clear_viewport_second_fixpoint hinv1 hl1b hc1 hoff1 hrows1 htmpl1
    · rw [hlimit1, hlim0]
      omega
    · have hrepl : g1.raw = List.replicate g1.raw.length g1.row_template := by
        rw [List.eq_replicate_length]
        intro r hr
        obtain ⟨i, hi, rfl⟩ := List.mem_iff_getElem.mp hr
        have hsome := htmpl1 i (by omega)
        rw [List.getElem?_eq_getElem hi] at hsome
        exact Option.some.inj hsome
      rw [hrepl]
      unfold Storage.rotate_neg
      rw [List.rotate_replicate]

/-- Witness for the amended C9: clearing the fully occupied 2×1 grid once
and then again — the second call returns the once-cleared state unchanged
(its `Bool` cursor template is the empty cell `false`). -/
theorem claim_C9_amended_witness :
    (gridFullRows.inv ∧ 1 ≤ gridFullRows.lines ∧ 1 ≤ gridFullRows.cols ∧
      (∀ r ∈ gridFullRows.raw, r.length = gridFullRows.cols) ∧
      GridCell.is_empty gridFullRows.cursor.template = true ∧
      gridFullRows.clear_viewport = some gridC4w) ∧
    gridC4w.clear_viewport = some gridC4w :=
  ⟨⟨⟨by decide, by decide, by decide⟩, by decide, by decide, by decide,
      by decide, by decide⟩,
    @claim_C9_amended Bool _ gridFullRows gridC4w
      ⟨by decide, by decide, by decide⟩ (by decide) (by decide) (by decide)
      (by decide) (by decide)⟩

end AlacrittyGrid
